import Mathlib

/-!
# Verification of the labplatform chaincode (Lab / Instance / Submission / Class contracts)

Shallow embedding of the four Hyperledger Fabric contracts in
`src/chaincode/lab/lab.go` (Lab, Instance, Submission) and
`src/chaincode/class/class.go` (Class).

Modelling conventions:
* The world state of one chaincode is an association list `Store := List (String × Bytes)`.
  Fabric guarantees the world state is a map; the reachability predicates below only
  produce stores with pairwise distinct keys.
* Serialized values (`json.Marshal` output) are modelled by the inductive `Bytes`:
  `json.Marshal` of the Go structs in this repository never fails, and the four record
  structs have pairwise different JSON field sets, so tagging by constructor is
  faithful to byte-level (in)equality.  `Bytes.nullByte` is the one-byte `[]byte{0x00}`
  sentinel written for index entries; it is not valid JSON, so every `json.Unmarshal`
  of it fails.
* `json.Unmarshal` into a record struct is modelled by the `unmarshal*` functions;
  Go's decoder is lenient, so decoding the JSON of a *different* record kind succeeds
  and fills the JSON fields the two kinds share (tags `docType, ID, classID, labID,
  name, content, image, startTime, endTime, config, owner, score`), leaving the
  rest at their zero value.
* `stub.CreateCompositeKey` is the Fabric shim implementation: the key is
  `U+0000 ++ objectType ++ U+0000 ++ attr₁ ++ U+0000 ++ ... ++ attrₙ ++ U+0000`.
  Its only failure mode in Go is invalid UTF-8, which a Lean `String` cannot
  represent, so the embedded codec is total.  The shim documentation requires that
  composite-key attributes and simple keys do not contain `U+0000`; theorems below
  take that documented precondition as a `NF` ("null-free") hypothesis.
* Store failures: the claims under verification only need injected failures for
  `PutState` (claim C3), so `Ctx.failPut` lists the keys whose write fails with a
  store error; `GetState` and `DelState` are modelled as never failing, making the
  corresponding Go error branches unreachable (they are still written out, mirroring
  the source).
* Fabric commits a transaction's write set only when the chaincode returns no error;
  `*.commit` below applies an operation's writes exactly when it returns `.ok`.
* The store's rich-query and pagination capability (`GetQueryResult*`,
  `GetStateByRangeWithPagination`) is external CouchDB behaviour; it is modelled by
  oracles in `Ctx` returning whatever iterator contents and metadata the store chose.
  Plain `GetStateByRange` is modelled concretely over the store contents (keys sorted
  in lexicographic order, start inclusive, end exclusive, `""` unbounded).
-/

set_option autoImplicit false

deriving instance DecidableEq for Except

namespace LabPlatform

/-- `U+0000`, Fabric's composite-key namespace and separator character. -/
def nullC : Char := Char.ofNat 0

/-- The one-character string `"\u0000"`. -/
def nullS : String := ⟨[nullC]⟩

/-- `NF s` ("null-free"): `s` does not contain `U+0000`.  The Fabric shim documents
that composite-key attributes and simple keys must not contain `U+0000`. -/
def NF (s : String) : Prop := nullC ∉ s.data

instance (s : String) : Decidable (NF s) := by unfold NF; infer_instance

/-- `shim.ChaincodeStub.CreateCompositeKey`: builds
`"\u0000" + objectType + "\u0000"` and then appends `att + "\u0000"` for each
attribute.  The Go implementation's only error is invalid UTF-8 input, which a
Lean `String` cannot represent, so the embedding is total. -/
def createCompositeKey (objectType : String) (attributes : List String) : String :=
  attributes.foldl (fun ck att => ck ++ att ++ nullS) (nullS ++ objectType ++ nullS)

/-- Character-level encoding of the attribute part of a composite key. -/
def encAttrs : List String → List Char
  | [] => []
  | a :: as => a.data ++ nullC :: encAttrs as

/-! ## Records and serialized values -/

/-- `Lab` struct of `lab.go` (JSON tags
`docType, ID, classID, name, content, image, startTime, endTime, owner`). -/
structure Lab where
  DocType : String
  ID : String
  ClassID : String
  Name : String
  Content : String
  Image : String
  StartTime : String
  EndTime : String
  Owner : String
deriving DecidableEq

/-- `Instance` struct (JSON tags `docType, ID, classID, labID, config, owner`). -/
structure Instance where
  DocType : String
  ID : String
  ClassID : String
  LabID : String
  Config : String
  Owner : String
deriving DecidableEq

/-- `Submission` struct (JSON tags `docType, ID, classID, labID, content, owner, score`).
`Score` is a Go `uint32`; no arithmetic is ever performed on it, so it is
modelled as `Nat`. -/
structure Submission where
  DocType : String
  ID : String
  ClassID : String
  LabID : String
  Content : String
  Owner : String
  Score : Nat
deriving DecidableEq

/-- `Class` struct of `class.go` (JSON tags `ID, name, content, owner`). -/
structure Class where
  ID : String
  Name : String
  Content : String
  Owner : String
deriving DecidableEq

/-- A value stored in the world state: the `json.Marshal` output of one of the four
record structs, or the one-byte `[]byte{0x00}` index-entry sentinel. -/
inductive Bytes where
  | labJson (l : Lab)
  | instanceJson (i : Instance)
  | submissionJson (sb : Submission)
  | classJson (cl : Class)
  | nullByte
deriving DecidableEq

/-- `json.Unmarshal` into a `Lab`.  `[]byte{0x00}` is not valid JSON and fails;
JSON of the other record kinds decodes leniently via the shared field tags. -/
def unmarshalLab : Bytes → Option Lab
  | .labJson l => some l
  | .instanceJson i => some ⟨i.DocType, i.ID, i.ClassID, "", "", "", "", "", i.Owner⟩
  | .submissionJson sb => some ⟨sb.DocType, sb.ID, sb.ClassID, "", sb.Content, "", "", "", sb.Owner⟩
  | .classJson cl => some ⟨"", cl.ID, "", cl.Name, cl.Content, "", "", "", cl.Owner⟩
  | .nullByte => none

/-- `json.Unmarshal` into an `Instance`. -/
def unmarshalInstance : Bytes → Option Instance
  | .instanceJson i => some i
  | .labJson l => some ⟨l.DocType, l.ID, l.ClassID, "", "", l.Owner⟩
  | .submissionJson sb => some ⟨sb.DocType, sb.ID, sb.ClassID, sb.LabID, "", sb.Owner⟩
  | .classJson cl => some ⟨"", cl.ID, "", "", "", cl.Owner⟩
  | .nullByte => none

/-- `json.Unmarshal` into a `Submission`. -/
def unmarshalSubmission : Bytes → Option Submission
  | .submissionJson sb => some sb
  | .labJson l => some ⟨l.DocType, l.ID, l.ClassID, "", l.Content, l.Owner, 0⟩
  | .instanceJson i => some ⟨i.DocType, i.ID, i.ClassID, i.LabID, "", i.Owner, 0⟩
  | .classJson cl => some ⟨"", cl.ID, "", "", cl.Content, cl.Owner, 0⟩
  | .nullByte => none

/-- `json.Unmarshal` into a `Class`. -/
def unmarshalClass : Bytes → Option Class
  | .classJson cl => some cl
  | .labJson l => some ⟨l.ID, l.Name, l.Content, l.Owner⟩
  | .instanceJson i => some ⟨i.ID, "", "", i.Owner⟩
  | .submissionJson sb => some ⟨sb.ID, "", sb.Content, sb.Owner⟩
  | .nullByte => none

/-! ## World state -/

/-- World state of one chaincode: an association list from key to value. -/
abbrev Store := List (String × Bytes)

/-- `stub.GetState`: the value stored under `k`, or `none`. -/
def getState (s : Store) (k : String) : Option Bytes :=
  (s.find? (fun kv => kv.1 == k)).map (fun kv => kv.2)

/-- Write `v` under `k`, replacing an existing entry for `k`. -/
def putStore : Store → String → Bytes → Store
  | [], k, v => [(k, v)]
  | kv :: s, k, v => if kv.1 == k then (k, v) :: s else kv :: putStore s k v

/-- `stub.DelState`: remove the entry for `k` (a no-op when absent). -/
def delState (s : Store) (k : String) : Store :=
  s.filter (fun kv => ¬ (kv.1 == k))

/-- Pairwise distinct keys (the world state is a map). -/
def KeysND (s : Store) : Prop := (s.map Prod.fst).Nodup

/-! ## Errors and the transaction context -/

/-- The distinct error outcomes produced by the contracts (`fmt.Errorf` sites,
tagged by what they report rather than by their message text). -/
inductive GoErr where
  | alreadyExists (id : String)
  | doesNotExist (id : String)
  | notAuthorized
  | notCreator
  | putFailed (key : String)
  | readFailed (id : String)
  | identityFailed
  | unmarshalFailed
  | invalidArgument
deriving DecidableEq

/-- The transaction context: injected `PutState` failures, the client identity
and ABAC answers used by the Class contract, and the store's rich-query /
pagination oracles (external CouchDB behaviour). -/
structure Ctx where
  /-- Keys whose `PutState` fails with a store error. -/
  failPut : List String
  /-- Result of `ctx.GetClientIdentity().GetID()` (a base64 string on success). -/
  getIdResult : Except GoErr String
  /-- Whether `AssertAttributeValue("class.creator", "true")` succeeds. -/
  attrOk : Bool
  /-- `stub.GetQueryResult` oracle: iterator contents for a query string. -/
  richQuery : String → Except GoErr (List (String × Bytes))
  /-- `stub.GetQueryResultWithPagination` oracle:
  iterator contents, `FetchedRecordsCount` and `Bookmark`. -/
  richQueryPaged : String → Int → String → Except GoErr (List (String × Bytes) × Int × String)
  /-- `stub.GetStateByRangeWithPagination` oracle. -/
  rangePaged : String → String → Int → String → Except GoErr (List (String × Bytes) × Int × String)

/-- `stub.PutState` with injected failures from `Ctx.failPut`. -/
def putState (c : Ctx) (s : Store) (k : String) (v : Bytes) : Except GoErr Store :=
  if k ∈ c.failPut then .error (.putFailed k) else .ok (putStore s k v)

/-- Go's `int32(pageSize)` conversion of an `int` (wraps modulo `2^32`). -/
def toInt32 (n : Int) : Int := (n + 2 ^ 31) % 2 ^ 32 - 2 ^ 31

/-! ## Range scans

`stub.GetStateByRange(start, end)` iterates the store over the key interval
`[start, end)` (empty string = unbounded) in the store's lexicographic key
order; composite keys live in the same keyspace and are returned too. -/

/-- Lexicographic strict order on character lists (the store's key order). -/
def charListLt : List Char → List Char → Bool
  | [], [] => false
  | [], _ :: _ => true
  | _ :: _, [] => false
  | a :: as, b :: bs =>
    if a.toNat < b.toNat then true
    else if b.toNat < a.toNat then false
    else charListLt as bs

/-- Lexicographic order on keys: `a` strictly before `b`. -/
def keyLt (a b : String) : Bool := charListLt a.data b.data

/-- Whether key `k` lies in the range `[startKey, endKey)`, `""` unbounded. -/
def rangeContains (startKey endKey k : String) : Bool :=
  (startKey == "" || !(keyLt k startKey)) && (endKey == "" || keyLt k endKey)

/-- Insert an entry into a key-sorted list. -/
def insertByKey (kv : String × Bytes) : List (String × Bytes) → List (String × Bytes)
  | [] => [kv]
  | kv' :: rest => if keyLt kv'.1 kv.1 then kv' :: insertByKey kv rest else kv :: kv' :: rest

/-- Sort entries by key (insertion sort). -/
def sortByKey : List (String × Bytes) → List (String × Bytes)
  | [] => []
  | kv :: rest => insertByKey kv (sortByKey rest)

/-- `stub.GetStateByRange`: the entries of `s` in `[startKey, endKey)`,
in lexicographic key order. -/
def getStateByRange (s : Store) (startKey endKey : String) : List (String × Bytes) :=
  sortByKey (s.filter (fun kv => rangeContains startKey endKey kv.1))

/-! ## The Lab contract (`lab.go`, `LabContract`) -/

namespace LabC

/-- `const index = "classID~name"` in the Lab chaincode. -/
def index : String := "classID~name"

/-- `PaginatedQueryResult` of the Lab chaincode. -/
structure PaginatedQueryResult where
  Labs : List Lab
  FetchedRecordsCount : Int
  Bookmark : String
deriving DecidableEq

/-- `LabContract.LabExists`: true iff `GetState(labID)` returns bytes.
`GetState` never fails in this model, so the wrapping error branch is
unreachable (kept implicit). -/
def LabExists (s : Store) (labID : String) : Except GoErr Bool :=
  .ok (getState s labID).isSome

/-- `LabContract.CreateLab`.  Returns the Go error result together with the
write set produced so far (Fabric commits it only on `.ok`, see `commit`). -/
def CreateLab (c : Ctx) (s : Store)
    (labID classID name content image startTime endTime owner : String) :
    Except GoErr Unit × Store :=
  match LabExists s labID with
  | .error _ => (.error (.readFailed labID), s)  -- "failed to get lab: %v" (unreachable)
  | .ok exists_ =>
  if exists_ then (.error (.alreadyExists labID), s)
  else
    let lab : Lab := ⟨"lab", labID, classID, name, content, image, startTime, endTime, owner⟩
    -- json.Marshal of a Lab cannot fail
    match putState c s labID (.labJson lab) with
    | .error e => (.error e, s)
    | .ok s1 =>
      let labNameIndexKey := createCompositeKey index [lab.ClassID, lab.ID]
      -- value := []byte{0x00}
      match putState c s1 labNameIndexKey .nullByte with
      | .error e => (.error e, s1)
      | .ok s2 => (.ok (), s2)

/-- `LabContract.ReadLab`. -/
def ReadLab (s : Store) (labID : String) : Except GoErr Lab :=
  match getState s labID with
  | none => .error (.doesNotExist labID)
  | some labBytes =>
    match unmarshalLab labBytes with
    | none => .error .unmarshalFailed
    | some lab => .ok lab

/-- `LabContract.DeleteLab`. -/
def DeleteLab (c : Ctx) (s : Store) (labID clientID : String) : Except GoErr Unit × Store :=
  match ReadLab s labID with
  | .error e => (.error e, s)
  | .ok lab =>
  if clientID ≠ lab.Owner then (.error .notAuthorized, s)
  else
    let s1 := delState s labID
    let labNameIndexKey := createCompositeKey index [lab.ClassID, lab.ID]
    (.ok (), delState s1 labNameIndexKey)

/-- `LabContract.UpdateLabContent`. -/
def UpdateLabContent (c : Ctx) (s : Store) (labID newContent clientID : String) :
    Except GoErr Unit × Store :=
  match ReadLab s labID with
  | .error e => (.error e, s)
  | .ok lab =>
  if clientID ≠ lab.Owner then (.error .notAuthorized, s)
  else
    let lab' := { lab with Content := newContent }
    match putState c s labID (.labJson lab') with
    | .error e => (.error e, s)
    | .ok s1 => (.ok (), s1)

/-- `LabContract.UpdateLabImage`. -/
def UpdateLabImage (c : Ctx) (s : Store) (labID newImage clientID : String) :
    Except GoErr Unit × Store :=
  match ReadLab s labID with
  | .error e => (.error e, s)
  | .ok lab =>
  if clientID ≠ lab.Owner then (.error .notAuthorized, s)
  else
    let lab' := { lab with Image := newImage }
    match putState c s labID (.labJson lab') with
    | .error e => (.error e, s)
    | .ok s1 => (.ok (), s1)

/-- `LabContract.UpdateLabEndtime`. -/
def UpdateLabEndtime (c : Ctx) (s : Store) (labID newTime clientID : String) :
    Except GoErr Unit × Store :=
  match ReadLab s labID with
  | .error e => (.error e, s)
  | .ok lab =>
  if clientID ≠ lab.Owner then (.error .notAuthorized, s)
  else
    let lab' := { lab with EndTime := newTime }
    match putState c s labID (.labJson lab') with
    | .error e => (.error e, s)
    | .ok s1 => (.ok (), s1)

/-- `LabContract.UpdateLab`. -/
def UpdateLab (c : Ctx) (s : Store)
    (labID newImage newName newContent newStartTime newEndTime clientID : String) :
    Except GoErr Unit × Store :=
  match ReadLab s labID with
  | .error e => (.error e, s)
  | .ok lab =>
  if clientID ≠ lab.Owner then (.error .notAuthorized, s)
  else
    let lab' := { lab with Image := newImage, Name := newName, Content := newContent,
                           StartTime := newStartTime, EndTime := newEndTime }
    match putState c s labID (.labJson lab') with
    | .error e => (.error e, s)
    | .ok s1 => (.ok (), s1)

/-- `constructQueryResponseFromIterator` (Lab version): unmarshal every entry,
returning an error as soon as one value does not parse. -/
def constructQueryResponseFromIterator : List (String × Bytes) → Except GoErr (List Lab)
  | [] => .ok []
  | kv :: rest =>
    match unmarshalLab kv.2 with
    | none => .error .unmarshalFailed
    | some lab =>
      match constructQueryResponseFromIterator rest with
      | .error e => .error e
      | .ok labs => .ok (lab :: labs)

/-- `LabContract.GetLabsByRange`. -/
def GetLabsByRange (s : Store) (startKey endKey : String) : Except GoErr (List Lab) :=
  constructQueryResponseFromIterator (getStateByRange s startKey endKey)

/-- `getQueryResultForQueryString` (Lab version). -/
def getQueryResultForQueryString (c : Ctx) (queryString : String) : Except GoErr (List Lab) :=
  match c.richQuery queryString with
  | .error e => .error e
  | .ok kvs => constructQueryResponseFromIterator kvs

/-- `LabContract.QueryLabsByClass`. -/
def QueryLabsByClass (c : Ctx) (class_ : String) : Except GoErr (List Lab) :=
  getQueryResultForQueryString c
    ("\x7b\"selector\":\x7b\"docType\":\"lab\",\"classID\":\"" ++ class_ ++ "\"\x7d\x7d")

/-- `LabContract.GetAssetsByRangeWithPagination`: note the response metadata is
discarded (`_` in the Go source) and only the records are returned. -/
def GetAssetsByRangeWithPagination (c : Ctx) (s : Store)
    (startKey endKey : String) (pageSize : Int) (bookmark : String) :
    Except GoErr (List Lab) :=
  match c.rangePaged startKey endKey (toInt32 pageSize) bookmark with
  | .error e => .error e
  | .ok (kvs, _, _) => constructQueryResponseFromIterator kvs

/-- `getQueryResultForQueryStringWithPagination` (Lab version). -/
def getQueryResultForQueryStringWithPagination (c : Ctx)
    (queryString : String) (pageSize : Int) (bookmark : String) :
    Except GoErr PaginatedQueryResult :=
  match c.richQueryPaged queryString pageSize bookmark with
  | .error e => .error e
  | .ok (kvs, fetched, bm) =>
    match constructQueryResponseFromIterator kvs with
    | .error e => .error e
    | .ok labs => .ok ⟨labs, fetched, bm⟩

/-- `LabContract.QueryAssetsWithPagination`: forwards `int32(pageSize)` and the
bookmark to the store without any validation. -/
def QueryAssetsWithPagination (c : Ctx)
    (queryString : String) (pageSize : Int) (bookmark : String) :
    Except GoErr PaginatedQueryResult :=
  getQueryResultForQueryStringWithPagination c queryString (toInt32 pageSize) bookmark

/-- The mutating operations of the Lab contract (the read-only operations
perform no store writes, so they do not appear in reachability). -/
inductive LabOp where
  | create (labID classID name content image startTime endTime owner : String)
  | delete (labID clientID : String)
  | updateContent (labID newContent clientID : String)
  | updateImage (labID newImage clientID : String)
  | updateEndtime (labID newTime clientID : String)
  | update (labID newImage newName newContent newStartTime newEndTime clientID : String)

/-- Run one mutating Lab operation. -/
def LabOp.run (c : Ctx) (s : Store) : LabOp → Except GoErr Unit × Store
  | .create labID classID name content image startTime endTime owner =>
      CreateLab c s labID classID name content image startTime endTime owner
  | .delete labID clientID => DeleteLab c s labID clientID
  | .updateContent labID newContent clientID => UpdateLabContent c s labID newContent clientID
  | .updateImage labID newImage clientID => UpdateLabImage c s labID newImage clientID
  | .updateEndtime labID newTime clientID => UpdateLabEndtime c s labID newTime clientID
  | .update labID newImage newName newContent newStartTime newEndTime clientID =>
      UpdateLab c s labID newImage newName newContent newStartTime newEndTime clientID

/-- Fabric commit semantics: the write set is applied only when the chaincode
returns no error. -/
def LabOp.commit (c : Ctx) (s : Store) (op : LabOp) : Store :=
  match op.run c s with
  | (.ok _, s') => s'
  | (.error _, _) => s

/-- All string arguments of the operation are `U+0000`-free (the documented
precondition of Fabric's simple and composite keys). -/
def LabOp.WF : LabOp → Prop
  | .create labID classID name content image startTime endTime owner =>
      NF labID ∧ NF classID ∧ NF name ∧ NF content ∧ NF image ∧
      NF startTime ∧ NF endTime ∧ NF owner
  | .delete labID clientID => NF labID ∧ NF clientID
  | .updateContent labID newContent clientID => NF labID ∧ NF newContent ∧ NF clientID
  | .updateImage labID newImage clientID => NF labID ∧ NF newImage ∧ NF clientID
  | .updateEndtime labID newTime clientID => NF labID ∧ NF newTime ∧ NF clientID
  | .update labID newImage newName newContent newStartTime newEndTime clientID =>
      NF labID ∧ NF newImage ∧ NF newName ∧ NF newContent ∧
      NF newStartTime ∧ NF newEndTime ∧ NF clientID

instance (op : LabOp) : Decidable op.WF :=
  match op with
  | .create labID classID name content image startTime endTime owner =>
    inferInstanceAs (Decidable (NF labID ∧ NF classID ∧ NF name ∧ NF content ∧ NF image ∧
      NF startTime ∧ NF endTime ∧ NF owner))
  | .delete labID clientID => inferInstanceAs (Decidable (NF labID ∧ NF clientID))
  | .updateContent a b d => inferInstanceAs (Decidable (NF a ∧ NF b ∧ NF d))
  | .updateImage a b d => inferInstanceAs (Decidable (NF a ∧ NF b ∧ NF d))
  | .updateEndtime a b d => inferInstanceAs (Decidable (NF a ∧ NF b ∧ NF d))
  | .update a b d e f g h =>
    inferInstanceAs (Decidable (NF a ∧ NF b ∧ NF d ∧ NF e ∧ NF f ∧ NF g ∧ NF h))

/-- Stores reachable from the empty world state by committed Lab-contract
operations, in a context without injected store failures. -/
inductive LabReach (c : Ctx) : Store → Prop where
  | init : LabReach c []
  | step {s : Store} {op : LabOp} : LabReach c s → op.WF → LabReach c (op.commit c s)

/-- Index key of a Lab record: composite key over `(ClassID, ID)`. -/
def labIndexKey (l : Lab) : String := createCompositeKey index [l.ClassID, l.ID]

/-- A well-formed stored Lab record: the `DocType` tag set by `CreateLab` and
null-free key material. -/
def GoodLab (l : Lab) : Prop := l.DocType = "lab" ∧ NF l.ID ∧ NF l.ClassID

/-- Shape invariant of reachable Lab stores: keys are pairwise distinct; every
entry is either a primary record stored under its `ID` or the index entry of a
currently stored record; and every stored record has its index entry. -/
structure LabWF (s : Store) : Prop where
  nodup : KeysND s
  shape : ∀ kv ∈ s,
    (∃ l : Lab, GoodLab l ∧ kv = (l.ID, Bytes.labJson l)) ∨
    (∃ l : Lab, GoodLab l ∧ (l.ID, Bytes.labJson l) ∈ s ∧ kv = (labIndexKey l, Bytes.nullByte))
  idx : ∀ l : Lab, (l.ID, Bytes.labJson l) ∈ s → (labIndexKey l, Bytes.nullByte) ∈ s

end LabC

/-! ## The Instance contract (`lab.go` second file, `InstanceContract`) -/

namespace InstanceC

def index1 : String := "labID~name"

def index2 : String := "classID~name"

def index3 : String := "owner~name"

/-- `InstanceContract.InstanceExists`. -/
def InstanceExists (s : Store) (instanceID : String) : Except GoErr Bool :=
  .ok (getState s instanceID).isSome

/-- `InstanceContract.CreateInstance`.  Mirrors the Go control flow exactly;
in particular, when the *second* index write fails the source executes
`return nil`, reporting success (lines 477-480 of the concatenated source). -/
def CreateInstance (c : Ctx) (s : Store)
    (instanceID labID classID config owner : String) : Except GoErr Unit × Store :=
  match InstanceExists s instanceID with
  | .error _ => (.error (.readFailed instanceID), s)  -- unreachable
  | .ok exists_ =>
  if exists_ then (.error (.alreadyExists labID), s)  -- source formats labID here
  else
    let instance_ : Instance := ⟨"instance", instanceID, classID, labID, config, owner⟩
    match putState c s instanceID (.instanceJson instance_) with
    | .error e => (.error e, s)
    | .ok s1 =>
      let instanceNameIndex1Key := createCompositeKey index1 [instance_.LabID, instance_.ID]
      match putState c s1 instanceNameIndex1Key .nullByte with
      | .error e => (.error e, s1)
      | .ok s2 =>
        let instanceNameIndex2Key := createCompositeKey index2 [instance_.ClassID, instance_.ID]
        match putState c s2 instanceNameIndex2Key .nullByte with
        | .error _ => (.ok (), s2)  -- BUG in source: `return nil` on error
        | .ok s3 =>
          let instanceNameIndex3Key := createCompositeKey index3 [instance_.Owner, instance_.ID]
          match putState c s3 instanceNameIndex3Key .nullByte with
          | .error e => (.error e, s3)
          | .ok s4 => (.ok (), s4)

/-- `InstanceContract.ReadInstance`. -/
def ReadInstance (s : Store) (instanceID : String) : Except GoErr Instance :=
  match getState s instanceID with
  | none => .error (.doesNotExist instanceID)
  | some instanceBytes =>
    match unmarshalInstance instanceBytes with
    | none => .error .unmarshalFailed
    | some instance_ => .ok instance_

/-- `InstanceContract.DeleteInstance`. -/
def DeleteInstance (c : Ctx) (s : Store) (instanceID clientID : String) :
    Except GoErr Unit × Store :=
  match ReadInstance s instanceID with
  | .error e => (.error e, s)
  | .ok instance_ =>
  if clientID ≠ instance_.Owner then (.error .notAuthorized, s)
  else
    let s1 := delState s instanceID
    let k1 := createCompositeKey index1 [instance_.LabID, instance_.ID]
    let s2 := delState s1 k1
    let k2 := createCompositeKey index2 [instance_.ClassID, instance_.ID]
    let s3 := delState s2 k2
    let k3 := createCompositeKey index3 [instance_.Owner, instance_.ID]
    (.ok (), delState s3 k3)

/-- `constructQueryResponseFromIterator` (Instance version). -/
def constructQueryResponseFromIterator : List (String × Bytes) → Except GoErr (List Instance)
  | [] => .ok []
  | kv :: rest =>
    match unmarshalInstance kv.2 with
    | none => .error .unmarshalFailed
    | some instance_ =>
      match constructQueryResponseFromIterator rest with
      | .error e => .error e
      | .ok instances => .ok (instance_ :: instances)

/-- `InstanceContract.GetInstanceByRange`. -/
def GetInstanceByRange (s : Store) (startKey endKey : String) : Except GoErr (List Instance) :=
  constructQueryResponseFromIterator (getStateByRange s startKey endKey)

/-- Mutating operations of the Instance contract. -/
inductive InstanceOp where
  | create (instanceID labID classID config owner : String)
  | delete (instanceID clientID : String)

/-- Run one mutating Instance operation. -/
def InstanceOp.run (c : Ctx) (s : Store) : InstanceOp → Except GoErr Unit × Store
  | .create instanceID labID classID config owner =>
      CreateInstance c s instanceID labID classID config owner
  | .delete instanceID clientID => DeleteInstance c s instanceID clientID

/-- Fabric commit semantics. -/
def InstanceOp.commit (c : Ctx) (s : Store) (op : InstanceOp) : Store :=
  match op.run c s with
  | (.ok _, s') => s'
  | (.error _, _) => s

/-- All string arguments are `U+0000`-free. -/
def InstanceOp.WF : InstanceOp → Prop
  | .create instanceID labID classID config owner =>
      NF instanceID ∧ NF labID ∧ NF classID ∧ NF config ∧ NF owner
  | .delete instanceID clientID => NF instanceID ∧ NF clientID

instance (op : InstanceOp) : Decidable op.WF :=
  match op with
  | .create instanceID labID classID config owner =>
    inferInstanceAs (Decidable (NF instanceID ∧ NF labID ∧ NF classID ∧ NF config ∧ NF owner))
  | .delete instanceID clientID => inferInstanceAs (Decidable (NF instanceID ∧ NF clientID))

/-- Stores reachable by committed Instance-contract operations without
injected store failures. -/
inductive InstanceReach (c : Ctx) : Store → Prop where
  | init : InstanceReach c []
  | step {s : Store} {op : InstanceOp} :
      InstanceReach c s → op.WF → InstanceReach c (op.commit c s)

/-- The three index keys of an Instance record. -/
def instIndexKey1 (i : Instance) : String := createCompositeKey index1 [i.LabID, i.ID]

def instIndexKey2 (i : Instance) : String := createCompositeKey index2 [i.ClassID, i.ID]

def instIndexKey3 (i : Instance) : String := createCompositeKey index3 [i.Owner, i.ID]

/-- A well-formed stored Instance record. -/
def GoodInstance (i : Instance) : Prop :=
  i.DocType = "instance" ∧ NF i.ID ∧ NF i.LabID ∧ NF i.ClassID ∧ NF i.Owner

/-- Shape invariant of reachable Instance stores. -/
structure InstanceWF (s : Store) : Prop where
  nodup : KeysND s
  shape : ∀ kv ∈ s,
    (∃ i : Instance, GoodInstance i ∧ kv = (i.ID, Bytes.instanceJson i)) ∨
    (∃ i : Instance, GoodInstance i ∧ (i.ID, Bytes.instanceJson i) ∈ s ∧
      (kv = (instIndexKey1 i, Bytes.nullByte) ∨ kv = (instIndexKey2 i, Bytes.nullByte) ∨
       kv = (instIndexKey3 i, Bytes.nullByte)))
  idx : ∀ i : Instance, (i.ID, Bytes.instanceJson i) ∈ s →
    (instIndexKey1 i, Bytes.nullByte) ∈ s ∧ (instIndexKey2 i, Bytes.nullByte) ∈ s ∧
    (instIndexKey3 i, Bytes.nullByte) ∈ s

end InstanceC

/-! ## The Submission contract (`lab.go` third file, `SubmissionContract`) -/

namespace SubmissionC

def index1 : String := "labID~name"

def index2 : String := "classID~name"

def index3 : String := "owner~name"

/-- `SubmissionContract.SubmissionExists`. -/
def SubmissionExists (s : Store) (submissionID : String) : Except GoErr Bool :=
  .ok (getState s submissionID).isSome

/-- `SubmissionContract.CreateSubmission`.  `Score` is initialized to `0`.
Like `CreateInstance`, the source executes `return nil` when the second index
write fails (lines 733-736). -/
def CreateSubmission (c : Ctx) (s : Store)
    (submissionID labID classID content owner : String) : Except GoErr Unit × Store :=
  match SubmissionExists s submissionID with
  | .error _ => (.error (.readFailed submissionID), s)  -- unreachable
  | .ok exists_ =>
  if exists_ then (.error (.alreadyExists labID), s)  -- source formats labID here
  else
    let submission : Submission := ⟨"submission", submissionID, classID, labID, content, owner, 0⟩
    match putState c s submissionID (.submissionJson submission) with
    | .error e => (.error e, s)
    | .ok s1 =>
      let k1 := createCompositeKey index1 [submission.LabID, submission.ID]
      match putState c s1 k1 .nullByte with
      | .error e => (.error e, s1)
      | .ok s2 =>
        let k2 := createCompositeKey index2 [submission.ClassID, submission.ID]
        match putState c s2 k2 .nullByte with
        | .error _ => (.ok (), s2)  -- BUG in source: `return nil` on error
        | .ok s3 =>
          let k3 := createCompositeKey index3 [submission.Owner, submission.ID]
          match putState c s3 k3 .nullByte with
          | .error e => (.error e, s3)
          | .ok s4 => (.ok (), s4)

/-- `SubmissionContract.ReadSubmission`. -/
def ReadSubmission (s : Store) (submissionID : String) : Except GoErr Submission :=
  match getState s submissionID with
  | none => .error (.doesNotExist submissionID)
  | some submissionBytes =>
    match unmarshalSubmission submissionBytes with
    | none => .error .unmarshalFailed
    | some submission => .ok submission

/-- `SubmissionContract.DeleteSubmission`.  NOTE: unlike every other Delete in
the repository, this operation takes **no client identity** and performs **no
ownership check**. -/
def DeleteSubmission (c : Ctx) (s : Store) (submissionID : String) :
    Except GoErr Unit × Store :=
  match ReadSubmission s submissionID with
  | .error e => (.error e, s)
  | .ok submission =>
    let s1 := delState s submissionID
    let k1 := createCompositeKey index1 [submission.LabID, submission.ID]
    let s2 := delState s1 k1
    let k2 := createCompositeKey index2 [submission.ClassID, submission.ID]
    let s3 := delState s2 k2
    let k3 := createCompositeKey index3 [submission.Owner, submission.ID]
    (.ok (), delState s3 k3)

/-- `SubmissionContract.UpdateSubmissionScore`.  NOTE: takes **no client
identity** and performs **no ownership check**. -/
def UpdateSubmissionScore (c : Ctx) (s : Store) (submissionID : String) (newScore : Nat) :
    Except GoErr Unit × Store :=
  match ReadSubmission s submissionID with
  | .error e => (.error e, s)
  | .ok submission =>
    let submission' := { submission with Score := newScore }
    match putState c s submissionID (.submissionJson submission') with
    | .error e => (.error e, s)
    | .ok s1 => (.ok (), s1)

/-- Mutating operations of the Submission contract. -/
inductive SubmissionOp where
  | create (submissionID labID classID content owner : String)
  | delete (submissionID : String)
  | updateScore (submissionID : String) (newScore : Nat)

/-- Run one mutating Submission operation. -/
def SubmissionOp.run (c : Ctx) (s : Store) : SubmissionOp → Except GoErr Unit × Store
  | .create submissionID labID classID content owner =>
      CreateSubmission c s submissionID labID classID content owner
  | .delete submissionID => DeleteSubmission c s submissionID
  | .updateScore submissionID newScore => UpdateSubmissionScore c s submissionID newScore

/-- Fabric commit semantics. -/
def SubmissionOp.commit (c : Ctx) (s : Store) (op : SubmissionOp) : Store :=
  match op.run c s with
  | (.ok _, s') => s'
  | (.error _, _) => s

/-- All string arguments are `U+0000`-free. -/
def SubmissionOp.WF : SubmissionOp → Prop
  | .create submissionID labID classID content owner =>
      NF submissionID ∧ NF labID ∧ NF classID ∧ NF content ∧ NF owner
  | .delete submissionID => NF submissionID
  | .updateScore submissionID _ => NF submissionID

instance (op : SubmissionOp) : Decidable op.WF :=
  match op with
  | .create submissionID labID classID content owner =>
    inferInstanceAs (Decidable (NF submissionID ∧ NF labID ∧ NF classID ∧ NF content ∧ NF owner))
  | .delete submissionID => inferInstanceAs (Decidable (NF submissionID))
  | .updateScore submissionID _ => inferInstanceAs (Decidable (NF submissionID))

/-- Stores reachable by committed Submission-contract operations without
injected store failures. -/
inductive SubmissionReach (c : Ctx) : Store → Prop where
  | init : SubmissionReach c []
  | step {s : Store} {op : SubmissionOp} :
      SubmissionReach c s → op.WF → SubmissionReach c (op.commit c s)

/-- The three index keys of a Submission record. -/
def subIndexKey1 (sb : Submission) : String := createCompositeKey index1 [sb.LabID, sb.ID]

def subIndexKey2 (sb : Submission) : String := createCompositeKey index2 [sb.ClassID, sb.ID]

def subIndexKey3 (sb : Submission) : String := createCompositeKey index3 [sb.Owner, sb.ID]

/-- A well-formed stored Submission record. -/
def GoodSubmission (sb : Submission) : Prop :=
  sb.DocType = "submission" ∧ NF sb.ID ∧ NF sb.LabID ∧ NF sb.ClassID ∧ NF sb.Owner

/-- Shape invariant of reachable Submission stores. -/
structure SubmissionWF (s : Store) : Prop where
  nodup : KeysND s
  shape : ∀ kv ∈ s,
    (∃ sb : Submission, GoodSubmission sb ∧ kv = (sb.ID, Bytes.submissionJson sb)) ∨
    (∃ sb : Submission, GoodSubmission sb ∧ (sb.ID, Bytes.submissionJson sb) ∈ s ∧
      (kv = (subIndexKey1 sb, Bytes.nullByte) ∨ kv = (subIndexKey2 sb, Bytes.nullByte) ∨
       kv = (subIndexKey3 sb, Bytes.nullByte)))
  idx : ∀ sb : Submission, (sb.ID, Bytes.submissionJson sb) ∈ s →
    (subIndexKey1 sb, Bytes.nullByte) ∈ s ∧ (subIndexKey2 sb, Bytes.nullByte) ∈ s ∧
    (subIndexKey3 sb, Bytes.nullByte) ∈ s

end SubmissionC

/-! ## Base64 and the Class contract (`class.go`, `ClassContract`) -/

/-- Value of one base64 alphabet character (RFC 4648 standard alphabet). -/
def b64Val (ch : Char) : Option Nat :=
  if 'A' ≤ ch ∧ ch ≤ 'Z' then some (ch.toNat - 65)
  else if 'a' ≤ ch ∧ ch ≤ 'z' then some (ch.toNat - 97 + 26)
  else if '0' ≤ ch ∧ ch ≤ '9' then some (ch.toNat - 48 + 52)
  else if ch = '+' then some 62
  else if ch = '/' then some 63
  else none

/-- `base64.StdEncoding.DecodeString` on the character list: four-character
groups with `=` padding, producing the decoded byte values. -/
def base64DecodeChars : List Char → Option (List Nat)
  | [] => some []
  | a :: b :: ch :: d :: rest =>
    match b64Val a, b64Val b with
    | some va, some vb =>
      if ch = '=' then
        if d = '=' ∧ rest = [] then some [va * 4 + vb / 16] else none
      else
        match b64Val ch with
        | none => none
        | some vc =>
          if d = '=' then
            if rest = [] then some [va * 4 + vb / 16, vb % 16 * 16 + vc / 4] else none
          else
            match b64Val d with
            | none => none
            | some vd =>
              (base64DecodeChars rest).map
                (fun tail => (va * 4 + vb / 16) :: (vb % 16 * 16 + vc / 4) :: (vc % 4 * 64 + vd) :: tail)
    | _, _ => none
  | _ => none

/-- Go's `string(bytes)` conversion, identifying each byte with the Unicode
code point of the same value (faithful for the ASCII identity strings Fabric
produces). -/
def bytesToString (bs : List Nat) : String := ⟨bs.map Char.ofNat⟩

namespace ClassC

/-- `ClassContract.ClassExists`. -/
def ClassExists (s : Store) (id : String) : Except GoErr Bool :=
  .ok (getState s id).isSome

/-- `ClassContract.GetSubmittingClientIdentity`: `GetID()` then base64-decode. -/
def GetSubmittingClientIdentity (c : Ctx) : Except GoErr String :=
  match c.getIdResult with
  | .error _ => .error .identityFailed   -- "Failed to read clientID"
  | .ok b64ID =>
    match base64DecodeChars b64ID.data with
    | none => .error .identityFailed     -- "failed to base64 decode clientID"
    | some decodeID => .ok (bytesToString decodeID)

/-- `ClassContract.CreateClass`: requires the `class.creator` attribute, then
stores the record with `Owner` set to the submitting client identity.  The
`owner` argument is never used by the source. -/
def CreateClass (c : Ctx) (s : Store) (id name content owner : String) :
    Except GoErr Unit × Store :=
  if ¬ c.attrOk then (.error .notCreator, s)
  else match ClassExists s id with
  | .error _ => (.error (.readFailed id), s)  -- unreachable
  | .ok exists_ =>
  if exists_ then (.error (.alreadyExists id), s)
  else match GetSubmittingClientIdentity c with
  | .error e => (.error e, s)
  | .ok clientID =>
    let class_ : Class := ⟨id, name, content, clientID⟩
    match putState c s id (.classJson class_) with
    | .error e => (.error e, s)
    | .ok s1 => (.ok (), s1)

/-- `ClassContract.ReadClass`. -/
def ReadClass (s : Store) (id : String) : Except GoErr Class :=
  match getState s id with
  | none => .error (.doesNotExist id)
  | some classJSON =>
    match unmarshalClass classJSON with
    | none => .error .unmarshalFailed
    | some class_ => .ok class_

/-- `ClassContract.UpdateClass`: ownership check against the submitting
client identity. -/
def UpdateClass (c : Ctx) (s : Store) (id newName newContent : String) :
    Except GoErr Unit × Store :=
  match ReadClass s id with
  | .error e => (.error e, s)
  | .ok class_ =>
  match GetSubmittingClientIdentity c with
  | .error e => (.error e, s)
  | .ok clientID =>
  if clientID ≠ class_.Owner then (.error .notAuthorized, s)
  else
    let class' := { class_ with Name := newName, Content := newContent }
    match putState c s id (.classJson class') with
    | .error e => (.error e, s)
    | .ok s1 => (.ok (), s1)

/-- `ClassContract.DeleteClass`. -/
def DeleteClass (c : Ctx) (s : Store) (id : String) : Except GoErr Unit × Store :=
  match ReadClass s id with
  | .error e => (.error e, s)
  | .ok asset =>
  match GetSubmittingClientIdentity c with
  | .error e => (.error e, s)
  | .ok clientID =>
  if clientID ≠ asset.Owner then (.error .notAuthorized, s)
  else (.ok (), delState s id)

/-- `ClassContract.TransferClass`: sets `Owner := newOwner` after the
ownership check. -/
def TransferClass (c : Ctx) (s : Store) (id newOwner : String) :
    Except GoErr Unit × Store :=
  match ReadClass s id with
  | .error e => (.error e, s)
  | .ok class_ =>
  match GetSubmittingClientIdentity c with
  | .error e => (.error e, s)
  | .ok clientID =>
  if clientID ≠ class_.Owner then (.error .notAuthorized, s)
  else
    let class' := { class_ with Owner := newOwner }
    match putState c s id (.classJson class') with
    | .error e => (.error e, s)
    | .ok s1 => (.ok (), s1)

/-- `ClassContract.InitLedger`: creates `class1`..`class6` via `CreateClass`
(the listed owners are passed as the ignored `owner` argument). -/
def InitLedger (c : Ctx) (s : Store) : Except GoErr Unit × Store :=
  match CreateClass c s "class1" "class1" "test" "Tomoko" with
  | (.error e, s') => (.error e, s')
  | (.ok _, s1) =>
  match CreateClass c s1 "class2" "class2" "test" "Brad" with
  | (.error e, s') => (.error e, s')
  | (.ok _, s2) =>
  match CreateClass c s2 "class3" "class3" "test" "Jin Soo" with
  | (.error e, s') => (.error e, s')
  | (.ok _, s3) =>
  match CreateClass c s3 "class4" "class4" "test" "Max" with
  | (.error e, s') => (.error e, s')
  | (.ok _, s4) =>
  match CreateClass c s4 "class5" "class5" "test" "Adriana" with
  | (.error e, s') => (.error e, s')
  | (.ok _, s5) =>
  match CreateClass c s5 "class6" "class6" "test" "Michel" with
  | (.error e, s') => (.error e, s')
  | (.ok _, s6) => (.ok (), s6)

end ClassC

/-! ## Concrete demonstration inputs (used by witnesses and counterexamples) -/

/-- A context with no injected failures; the client identity is the base64
encoding of `"Tom"`; the rich-query oracles return empty results. -/
def demoCtx : Ctx where
  failPut := []
  getIdResult := .ok "VG9t"
  attrOk := true
  richQuery := fun _ => .ok []
  richQueryPaged := fun _ _ _ => .ok ([], 0, "")
  rangePaged := fun _ _ _ _ => .ok ([], 0, "")

def demoLab : Lab := ⟨"lab", "lab1", "class1", "n", "c", "i", "st", "e", "Tom"⟩

/-- Lab store reached by one committed `CreateLab` (owner `"Tom"`). -/
def demoReachLabStore : Store :=
  LabC.LabOp.commit demoCtx [] (.create "lab1" "class1" "n" "c" "i" "st" "e" "Tom")

/-- Instance store reached by one committed `CreateInstance` (owner `"Tom"`). -/
def demoReachInstStore : Store :=
  InstanceC.InstanceOp.commit demoCtx [] (.create "i1" "lab1" "class1" "cfg" "Tom")

/-- Submission store reached by one committed `CreateSubmission` (owner `"Tom"`). -/
def demoReachSubStore : Store :=
  SubmissionC.SubmissionOp.commit demoCtx [] (.create "sub1" "lab1" "class1" "text" "Tom")

/-- A Class store holding one class owned by `"Alice"`. -/
def demoClassStore : Store := [("class1", .classJson ⟨"class1", "n", "c", "Alice"⟩)]

/-- Context whose store fails the write of the `classID~name` index key of `i1`
(the second index write of `CreateInstance`). -/
def c3InstCtx : Ctx :=
  { demoCtx with failPut := [createCompositeKey "classID~name" ["class1", "i1"]] }

/-- Context failing the second index write of `CreateSubmission` for `sub1`. -/
def c3SubCtx : Ctx :=
  { demoCtx with failPut := [createCompositeKey "classID~name" ["class1", "sub1"]] }

/-- Context failing the single index write of `CreateLab` for `lab1`. -/
def c3LabCtx : Ctx :=
  { demoCtx with failPut := [createCompositeKey "classID~name" ["class1", "lab1"]] }

/-- Context whose paginated store oracles return one lab entry together with
the given bookmark. -/
def pagedCtx (bm : String) : Ctx :=
  { demoCtx with
    rangePaged := fun _ _ _ _ => .ok ([("lab1", .labJson demoLab)], 1, bm)
    richQueryPaged := fun _ _ _ => .ok ([("lab1", .labJson demoLab)], 1, bm) }

/-! # Theorems

## Composite-key codec lemmas -/

theorem encAttrs_data (a : String) (as : List String) :
    encAttrs (a :: as) = a.data ++ nullC :: encAttrs as := rfl

theorem foldl_encAttrs (as : List String) (acc : String) :
    (as.foldl (fun ck att => ck ++ att ++ nullS) acc).data = acc.data ++ encAttrs as := by
  induction as generalizing acc with
  | nil => simp [encAttrs]
  | cons a as ih =>
    simp only [List.foldl_cons, ih, encAttrs, String.data_append]
    simp [nullS]

theorem createCompositeKey_data (o : String) (as : List String) :
    (createCompositeKey o as).data = nullC :: (o.data ++ nullC :: encAttrs as) := by
  unfold createCompositeKey
  rw [foldl_encAttrs]
  simp [nullS, String.data_append]

/-- Splitting at the first `U+0000` is unambiguous when the leading segments
are null-free. -/
theorem sep_inj {xs ys r r' : List Char} (hx : nullC ∉ xs) (hy : nullC ∉ ys)
    (h : xs ++ nullC :: r = ys ++ nullC :: r') : xs = ys ∧ r = r' := by
  induction xs generalizing ys with
  | nil =>
    cases ys with
    | nil => simpa using h
    | cons y ys =>
      simp only [List.nil_append, List.cons_append, List.cons.injEq] at h
      obtain ⟨h1, _⟩ := h
      subst h1
      exact absurd (List.mem_cons_self _ _) hy
  | cons x xs ih =>
    cases ys with
    | nil =>
      simp only [List.cons_append, List.nil_append, List.cons.injEq] at h
      obtain ⟨h1, _⟩ := h
      subst h1
      exact absurd (List.mem_cons_self _ _) hx
    | cons y ys =>
      simp only [List.cons_append, List.cons.injEq] at h
      obtain ⟨h1, h2⟩ := h
      have hx' : nullC ∉ xs := fun hm => hx (List.mem_cons_of_mem _ hm)
      have hy' : nullC ∉ ys := fun hm => hy (List.mem_cons_of_mem _ hm)
      obtain ⟨e1, e2⟩ := ih hx' hy' h2
      exact ⟨by rw [h1, e1], e2⟩

theorem NF_data {a : String} (h : NF a) : nullC ∉ a.data := h

theorem encAttrs_inj : ∀ {as as' : List String}, (∀ a ∈ as, NF a) → (∀ a ∈ as', NF a) →
    encAttrs as = encAttrs as' → as = as' := by
  intro as
  induction as with
  | nil =>
    intro as' _ _ h
    cases as' with
    | nil => rfl
    | cons a as' =>
      exfalso
      have hl := congrArg List.length h
      simp [encAttrs] at hl
      omega
  | cons a as ih =>
    intro as' hnf hnf' h
    cases as' with
    | nil =>
      exfalso
      have hl := congrArg List.length h
      simp [encAttrs] at hl
    | cons a' as'' =>
      simp only [encAttrs] at h
      obtain ⟨e1, e2⟩ := sep_inj (NF_data (hnf a (List.mem_cons_self _ _)))
        (NF_data (hnf' a' (List.mem_cons_self _ _))) h
      have ha : a = a' := String.ext e1
      have : as = as'' := ih (fun x hx => hnf x (List.mem_cons_of_mem _ hx))
        (fun x hx => hnf' x (List.mem_cons_of_mem _ hx)) e2
      rw [ha, this]

/-- `CreateCompositeKey` is injective on null-free inputs. -/
theorem createCompositeKey_inj {o o' : String} {as as' : List String}
    (ho : NF o) (ho' : NF o') (has : ∀ a ∈ as, NF a) (has' : ∀ a ∈ as', NF a)
    (h : createCompositeKey o as = createCompositeKey o' as') : o = o' ∧ as = as' := by
  have hd := congrArg String.data h
  rw [createCompositeKey_data, createCompositeKey_data] at hd
  simp only [List.cons.injEq, true_and] at hd
  obtain ⟨e1, e2⟩ := sep_inj (NF_data ho) (NF_data ho') hd
  exact ⟨String.ext e1, encAttrs_inj has has' e2⟩

/-- A composite key (which starts with `U+0000`) is never a null-free simple key. -/
theorem createCompositeKey_ne_id (o : String) (as : List String) {id : String}
    (h : NF id) : createCompositeKey o as ≠ id := by
  intro he
  have hd := congrArg String.data he
  rw [createCompositeKey_data] at hd
  exact h (hd ▸ List.mem_cons_self _ _)

/-! ## Store lemmas -/

theorem getState_nil (k : String) : getState [] k = none := rfl

theorem getState_cons (kv : String × Bytes) (s : Store) (k : String) :
    getState (kv :: s) k = if kv.1 = k then some kv.2 else getState s k := by
  by_cases h : kv.1 = k
  · rw [if_pos h]
    unfold getState
    rw [List.find?_cons_of_pos _ (by simp [h])]
    rfl
  · rw [if_neg h]
    unfold getState
    rw [List.find?_cons_of_neg _ (by simp [h])]

theorem getState_putStore_self (s : Store) (k : String) (v : Bytes) :
    getState (putStore s k v) k = some v := by
  induction s with
  | nil =>
    show getState [(k, v)] k = some v
    rw [getState_cons]
    simp
  | cons kv s ih =>
    by_cases h : kv.1 = k
    · simp only [putStore, if_pos (show ((kv.1 == k) = true) by simpa using h)]
      rw [getState_cons]
      simp
    · simp only [putStore, if_neg (show ¬ ((kv.1 == k) = true) by simpa using h)]
      rw [getState_cons, if_neg h]
      exact ih

theorem getState_putStore_ne (s : Store) (k : String) (v : Bytes) {k' : String}
    (h : k' ≠ k) : getState (putStore s k v) k' = getState s k' := by
  induction s with
  | nil =>
    show getState [(k, v)] k' = getState [] k'
    rw [getState_cons]
    exact if_neg (fun he => h he.symm)
  | cons kv s ih =>
    by_cases hk : kv.1 = k
    · simp only [putStore, if_pos (show ((kv.1 == k) = true) by simpa using hk)]
      rw [getState_cons, getState_cons]
      rw [if_neg (fun he : k = k' => h he.symm),
        if_neg (fun he : kv.1 = k' => h (hk.symm.trans he).symm)]
    · simp only [putStore, if_neg (show ¬ ((kv.1 == k) = true) by simpa using hk)]
      rw [getState_cons, getState_cons, ih]

theorem mem_delState {s : Store} {k k' : String} {v' : Bytes} :
    (k', v') ∈ delState s k ↔ (k', v') ∈ s ∧ k' ≠ k := by
  simp [delState, List.mem_filter]

theorem getState_eq_none_iff {s : Store} {k : String} :
    getState s k = none ↔ ∀ kv ∈ s, kv.1 ≠ k := by
  simp [getState, List.find?_eq_none]

theorem getState_delState_self (s : Store) (k : String) :
    getState (delState s k) k = none := by
  rw [getState_eq_none_iff]
  intro kv hkv
  rw [delState, List.mem_filter] at hkv
  simpa using hkv.2

theorem getState_delState_ne (s : Store) (k : String) {k' : String} (h : k' ≠ k) :
    getState (delState s k) k' = getState s k' := by
  induction s with
  | nil => rfl
  | cons kv s ih =>
    by_cases hk : kv.1 = k
    · have hd : delState (kv :: s) k = delState s k := by
        simp [delState, List.filter_cons, hk]
      rw [hd, ih, getState_cons, if_neg (fun he : kv.1 = k' => h (hk.symm.trans he).symm)]
    · have hd : delState (kv :: s) k = kv :: delState s k := by
        simp [delState, List.filter_cons, hk]
      rw [hd, getState_cons, getState_cons, ih]

theorem getState_eq_some_mem {s : Store} {k : String} {v : Bytes}
    (h : getState s k = some v) : (k, v) ∈ s := by
  induction s with
  | nil => simp [getState] at h
  | cons kv s ih =>
    rw [getState_cons] at h
    by_cases hk : kv.1 = k
    · rw [if_pos hk] at h
      rw [List.mem_cons]
      left
      obtain ⟨k0, v0⟩ := kv
      simp only at hk h
      injection h with h
      rw [hk, h]
    · rw [if_neg hk] at h
      exact List.mem_cons_of_mem _ (ih h)

theorem keys_delState_sub (s : Store) (k : String) : KeysND s → KeysND (delState s k) :=
  fun h => h.sublist ((List.filter_sublist s).map Prod.fst)

theorem putStore_cons_pos {kv : String × Bytes} {s : Store} {k : String} {v : Bytes}
    (hk : kv.1 = k) : putStore (kv :: s) k v = (k, v) :: s := by
  simp [putStore, hk]

theorem putStore_cons_neg {kv : String × Bytes} {s : Store} {k : String} {v : Bytes}
    (hk : kv.1 ≠ k) : putStore (kv :: s) k v = kv :: putStore s k v := by
  simp [putStore, hk]

theorem mem_keys_putStore {s : Store} {k x : String} {v : Bytes}
    (h : x ∈ (putStore s k v).map Prod.fst) : x = k ∨ x ∈ s.map Prod.fst := by
  induction s with
  | nil => simpa [putStore] using h
  | cons kv s ih =>
    by_cases hk : kv.1 = k
    · rw [putStore_cons_pos hk, List.map_cons] at h
      rcases List.mem_cons.1 h with h | h
      · exact Or.inl h
      · exact Or.inr (by rw [List.map_cons, List.mem_cons]; exact Or.inr h)
    · rw [putStore_cons_neg hk, List.map_cons] at h
      rcases List.mem_cons.1 h with h | h
      · exact Or.inr (by rw [List.map_cons, List.mem_cons]; exact Or.inl h)
      · rcases ih h with h' | h'
        · exact Or.inl h'
        · exact Or.inr (by rw [List.map_cons, List.mem_cons]; exact Or.inr h')

theorem keysND_putStore {s : Store} (k : String) (v : Bytes) (h : KeysND s) :
    KeysND (putStore s k v) := by
  induction s with
  | nil => simp [putStore, KeysND]
  | cons kv s ih =>
    rw [KeysND, List.map_cons, List.nodup_cons] at h
    obtain ⟨h1, h2⟩ := h
    by_cases hk : kv.1 = k
    · rw [KeysND, putStore_cons_pos hk, List.map_cons, List.nodup_cons]
      exact ⟨hk ▸ h1, h2⟩
    · rw [KeysND, putStore_cons_neg hk, List.map_cons, List.nodup_cons]
      refine ⟨fun hm => ?_, ih h2⟩
      rcases mem_keys_putStore hm with h' | h'
      · exact hk h'
      · exact h1 h'

theorem mem_getState {s : Store} (hnd : KeysND s) {k : String} {v : Bytes}
    (h : (k, v) ∈ s) : getState s k = some v := by
  induction s with
  | nil => simp at h
  | cons kv s ih =>
    rw [KeysND, List.map_cons, List.nodup_cons] at hnd
    rw [getState_cons]
    rcases List.mem_cons.1 h with h | h
    · simp [← h]
    · have hne : kv.1 ≠ k := by
        intro he
        exact hnd.1 (he ▸ (List.mem_map_of_mem Prod.fst h))
      rw [if_neg hne]
      exact ih hnd.2 h

theorem mem_putStore {s : Store} (hnd : KeysND s) {k k' : String} {v v' : Bytes} :
    (k', v') ∈ putStore s k v ↔ (k' = k ∧ v' = v) ∨ ((k', v') ∈ s ∧ k' ≠ k) := by
  induction s with
  | nil => simp [putStore, eq_comm]
  | cons kv s ih =>
    rw [KeysND, List.map_cons, List.nodup_cons] at hnd
    obtain ⟨h1, h2⟩ := hnd
    by_cases hk : kv.1 = k
    · rw [putStore_cons_pos hk]
      constructor
      · intro hm
        rcases List.mem_cons.1 hm with hm | hm
        · exact Or.inl (by simpa [Prod.ext_iff] using hm)
        · refine Or.inr ⟨List.mem_cons_of_mem _ hm, fun he => ?_⟩
          apply h1
          rw [hk, ← he]
          exact List.mem_map_of_mem Prod.fst hm
      · intro hm
        rcases hm with ⟨e1, e2⟩ | ⟨hm, hne⟩
        · rw [List.mem_cons]
          exact Or.inl (by rw [e1, e2])
        · rcases List.mem_cons.1 hm with hm' | hm'
          · exact absurd ((congrArg Prod.fst hm').trans hk) hne
          · exact List.mem_cons_of_mem _ hm'
    · rw [putStore_cons_neg hk]
      constructor
      · intro hm
        rcases List.mem_cons.1 hm with hm | hm
        · exact Or.inr ⟨by rw [List.mem_cons]; exact Or.inl hm,
            fun he => hk ((congrArg Prod.fst hm).symm.trans he)⟩
        · rcases (ih h2).1 hm with h' | h'
          · exact Or.inl h'
          · exact Or.inr ⟨List.mem_cons_of_mem _ h'.1, h'.2⟩
      · intro hm
        rcases hm with ⟨e1, e2⟩ | ⟨hm, hne⟩
        · exact List.mem_cons_of_mem _ ((ih h2).2 (Or.inl ⟨e1, e2⟩))
        · rcases List.mem_cons.1 hm with hm' | hm'
          · exact hm' ▸ List.mem_cons_self _ _
          · exact List.mem_cons_of_mem _ ((ih h2).2 (Or.inr ⟨hm', hne⟩))

/-- In a store with pairwise distinct keys, the entries carrying a given key
are exactly one once that key is present. -/
theorem filter_key_length_one {s : Store} (hnd : KeysND s) {k : String} {v : Bytes}
    (h : (k, v) ∈ s) : (s.filter (fun kv => kv.1 == k)).length = 1 := by
  induction s with
  | nil => simp at h
  | cons kv s ih =>
    rw [KeysND, List.map_cons, List.nodup_cons] at hnd
    by_cases hk : kv.1 = k
    · have hnone : s.filter (fun kv => kv.1 == k) = [] := by
        rw [List.filter_eq_nil_iff]
        intro x hx
        simp only [beq_iff_eq]
        intro he
        exact hnd.1 (by rw [hk, ← he]; exact List.mem_map_of_mem Prod.fst hx)
      rw [List.filter_cons]
      simp [hk, hnone]
    · rcases List.mem_cons.1 h with h' | h'
      · exact absurd (congrArg Prod.fst h'.symm) hk
      · rw [List.filter_cons]
        simp only [beq_iff_eq, hk]
        simpa using ih hnd.2 h'

/-! ## Lab contract: invariant preservation and reachability -/

namespace LabC

theorem NF_index : NF index := by decide

theorem labIndexKey_inj {l l' : Lab} (h : GoodLab l) (h' : GoodLab l')
    (he : labIndexKey l = labIndexKey l') : l.ClassID = l'.ClassID ∧ l.ID = l'.ID := by
  obtain ⟨-, hid, hcid⟩ := h
  obtain ⟨-, hid', hcid'⟩ := h'
  obtain ⟨-, hlist⟩ := createCompositeKey_inj NF_index NF_index
    (by
      intro a ha
      simp only [List.mem_cons, List.not_mem_nil, or_false] at ha
      rcases ha with ha | ha <;> rw [ha] <;> assumption)
    (by
      intro a ha
      simp only [List.mem_cons, List.not_mem_nil, or_false] at ha
      rcases ha with ha | ha <;> rw [ha] <;> assumption) he
  simp only [List.cons.injEq, and_true] at hlist
  exact ⟨hlist.1, hlist.2⟩

theorem labIndexKey_ne_id (l : Lab) {id : String} (h : NF id) : labIndexKey l ≠ id :=
  createCompositeKey_ne_id _ _ h

/-- A successful `ReadLab` on a well-formed store returns the stored record. -/
theorem ReadLab_ok {s : Store} (hwf : LabWF s) {labID : String} (hid : NF labID) {lab : Lab}
    (h : ReadLab s labID = .ok lab) :
    GoodLab lab ∧ lab.ID = labID ∧ (labID, Bytes.labJson lab) ∈ s := by
  unfold ReadLab at h
  cases hg : getState s labID with
  | none => rw [hg] at h; exact absurd h (by simp)
  | some b =>
    rw [hg] at h
    have hmem := getState_eq_some_mem hg
    rcases hwf.shape _ hmem with ⟨l, hgood, hkv⟩ | ⟨l, _, _, hkv⟩
    · rw [Prod.ext_iff] at hkv
      obtain ⟨e1, e2⟩ := hkv
      simp only at e1 e2
      rw [e2] at h
      simp only [unmarshalLab] at h
      injection h with h
      exact ⟨h ▸ hgood, by rw [← h]; exact e1.symm, by rw [← h, ← e2]; exact hmem⟩
    · rw [Prod.ext_iff] at hkv
      exact absurd hkv.1.symm (labIndexKey_ne_id l hid)

/-- Control-flow reduction of `CreateLab` in a context without injected
write failures. -/
theorem CreateLab_run {c : Ctx} (hc : c.failPut = []) (s : Store)
    (labID classID name content image startTime endTime owner : String) :
    CreateLab c s labID classID name content image startTime endTime owner =
      if (getState s labID).isSome then (.error (.alreadyExists labID), s)
      else (.ok (), putStore (putStore s labID
              (.labJson ⟨"lab", labID, classID, name, content, image, startTime, endTime, owner⟩))
            (createCompositeKey index [classID, labID]) .nullByte) := by
  simp [CreateLab, LabExists, putState, hc]

/-- `CreateLab` on a fresh id preserves the Lab store invariant. -/
theorem LabWF_create {s : Store} (hwf : LabWF s)
    {labID classID name content image startTime endTime owner : String}
    (hid : NF labID) (hcid : NF classID)
    (hfresh : getState s labID = none) :
    LabWF (putStore (putStore s labID
        (.labJson ⟨"lab", labID, classID, name, content, image, startTime, endTime, owner⟩))
      (createCompositeKey index [classID, labID]) .nullByte) := by
  set lab : Lab := ⟨"lab", labID, classID, name, content, image, startTime, endTime, owner⟩ with hlab
  have hgoodlab : GoodLab lab := ⟨rfl, hid, hcid⟩
  have hkey : createCompositeKey index [classID, labID] = labIndexKey lab := rfl
  rw [hkey]
  have hfresh1 : ∀ kv ∈ s, kv.1 ≠ labID := getState_eq_none_iff.1 hfresh
  have hnd1 : KeysND (putStore s labID (.labJson lab)) := keysND_putStore _ _ hwf.nodup
  have hnd2 : KeysND (putStore (putStore s labID (.labJson lab)) (labIndexKey lab) .nullByte) :=
    keysND_putStore _ _ hnd1
  have hmem2 : ∀ {k : String} {v : Bytes},
      (k, v) ∈ putStore (putStore s labID (.labJson lab)) (labIndexKey lab) .nullByte ↔
      (k = labIndexKey lab ∧ v = .nullByte) ∨
      ((k = labID ∧ v = .labJson lab) ∨ ((k, v) ∈ s ∧ k ≠ labID)) ∧ k ≠ labIndexKey lab := by
    intro k v
    rw [mem_putStore hnd1]
    constructor
    · rintro (h | ⟨h, hne⟩)
      · exact Or.inl h
      · exact Or.inr ⟨(mem_putStore hwf.nodup).1 h, hne⟩
    · rintro (h | ⟨h, hne⟩)
      · exact Or.inl h
      · exact Or.inr ⟨(mem_putStore hwf.nodup).2 h, hne⟩
  have hprim : (lab.ID, Bytes.labJson lab) ∈
      putStore (putStore s labID (.labJson lab)) (labIndexKey lab) .nullByte := by
    rw [hmem2]
    exact Or.inr ⟨Or.inl ⟨rfl, rfl⟩, labIndexKey_ne_id lab hid |>.symm⟩
  refine ⟨hnd2, ?_, ?_⟩
  · rintro ⟨k, v⟩ hkv
    rw [hmem2] at hkv
    rcases hkv with ⟨hk, hv⟩ | ⟨⟨hk, hv⟩ | ⟨hkv, hk1⟩, hk2⟩
    · exact Or.inr ⟨lab, hgoodlab, hprim, by rw [hk, hv]⟩
    · exact Or.inl ⟨lab, hgoodlab, by rw [hk, hv]⟩
    · rcases hwf.shape _ hkv with ⟨l, hgood, hkv'⟩ | ⟨l, hgood, hprim', hkv'⟩
      · exact Or.inl ⟨l, hgood, hkv'⟩
      · refine Or.inr ⟨l, hgood, ?_, hkv'⟩
        rw [hmem2]
        exact Or.inr ⟨Or.inr ⟨hprim', hfresh1 _ hprim'⟩, (labIndexKey_ne_id lab hgood.2.1).symm⟩
  · intro l hl
    rw [hmem2] at hl
    rcases hl with ⟨hk, hv⟩ | ⟨⟨hk, hv⟩ | ⟨hkv, hk1⟩, hk2⟩
    · exact absurd hv (by simp)
    · have : l = lab := by injection hv
      rw [this]
      rw [hmem2]
      exact Or.inl ⟨rfl, rfl⟩
    · have hidx := hwf.idx l hkv
      by_cases hsame : labIndexKey l = labIndexKey lab
      · rw [hmem2]
        exact Or.inl ⟨hsame, rfl⟩
      · rw [hmem2]
        have hlid : NF l.ID := by
          rcases hwf.shape _ hkv with ⟨l', hgood', hkv'⟩ | ⟨l', _, _, hkv'⟩
          · rw [Prod.ext_iff] at hkv'
            have : l' = l := by
              have := hkv'.2
              simp only at this
              injection this with h
              exact h.symm
            rw [← this]
            exact hgood'.2.1
          · rw [Prod.ext_iff] at hkv'
            have := hkv'.2
            simp at this
        exact Or.inr ⟨Or.inr ⟨hidx, labIndexKey_ne_id l hid⟩, hsame⟩

/-- A primary entry of a well-formed Lab store holds a well-formed record. -/
theorem LabWF_good {s : Store} (hwf : LabWF s) {m : Lab}
    (hm : (m.ID, Bytes.labJson m) ∈ s) : GoodLab m := by
  rcases hwf.shape _ hm with ⟨l', hgood', he⟩ | ⟨l', _, _, he⟩
  · rw [Prod.ext_iff] at he
    have hv := he.2
    simp only at hv
    injection hv with hv
    rw [hv]
    exact hgood'
  · rw [Prod.ext_iff] at he
    have hv := he.2
    simp at hv

/-- `DeleteLab`'s two deletions preserve the Lab store invariant. -/
theorem LabWF_delete {s : Store} (hwf : LabWF s) {l : Lab} (hgood : GoodLab l)
    (hmem : (l.ID, Bytes.labJson l) ∈ s) :
    LabWF (delState (delState s l.ID) (labIndexKey l)) := by
  have hnd1 := keys_delState_sub s l.ID hwf.nodup
  have hnd2 := keys_delState_sub _ (labIndexKey l) hnd1
  have hmem2 : ∀ {k : String} {v : Bytes},
      (k, v) ∈ delState (delState s l.ID) (labIndexKey l) ↔
      (k, v) ∈ s ∧ k ≠ l.ID ∧ k ≠ labIndexKey l := by
    intro k v
    rw [mem_delState, mem_delState]
    tauto
  refine ⟨hnd2, ?_, ?_⟩
  · rintro ⟨k, v⟩ hkv
    rw [hmem2] at hkv
    obtain ⟨hkv, hk1, hk2⟩ := hkv
    rcases hwf.shape _ hkv with ⟨l', hgood', he⟩ | ⟨l', hgood', hprim', he⟩
    · exact Or.inl ⟨l', hgood', he⟩
    · refine Or.inr ⟨l', hgood', ?_, he⟩
      rw [hmem2]
      refine ⟨hprim', ?_, (labIndexKey_ne_id l hgood'.2.1).symm⟩
      intro he'
      have g1 := mem_getState hwf.nodup hprim'
      have g2 := mem_getState hwf.nodup hmem
      rw [he', g2] at g1
      injection g1 with g1
      injection g1 with g1
      apply hk2
      have he1 : k = labIndexKey l' := congrArg Prod.fst he
      rw [he1, ← g1]
  · intro m hm
    rw [hmem2] at hm
    obtain ⟨hm, hk1, hk2⟩ := hm
    have hGm := LabWF_good hwf hm
    have hidx := hwf.idx m hm
    rw [hmem2]
    refine ⟨hidx, labIndexKey_ne_id m hgood.2.1, ?_⟩
    intro he
    exact hk1 (labIndexKey_inj hGm hgood he).2

/-- Re-serializing a stored record under the same key with unchanged indexed
fields preserves the Lab store invariant. -/
theorem LabWF_update {s : Store} (hwf : LabWF s) {l l' : Lab} (hgood' : GoodLab l')
    (hmem : (l.ID, Bytes.labJson l) ∈ s) (hid : l'.ID = l.ID)
    (hkey : labIndexKey l' = labIndexKey l) :
    LabWF (putStore s l.ID (.labJson l')) := by
  have hGl := LabWF_good hwf hmem
  have hnd := keysND_putStore l.ID (Bytes.labJson l') hwf.nodup
  have hmemP : ∀ {k : String} {v : Bytes}, (k, v) ∈ putStore s l.ID (.labJson l') ↔
      (k = l.ID ∧ v = .labJson l') ∨ ((k, v) ∈ s ∧ k ≠ l.ID) := fun {k v} =>
    mem_putStore hwf.nodup
  refine ⟨hnd, ?_, ?_⟩
  · rintro ⟨k, v⟩ hkv
    rw [hmemP] at hkv
    rcases hkv with ⟨hk, hv⟩ | ⟨hkv, hk⟩
    · exact Or.inl ⟨l', hgood', by rw [hk, hv, ← hid]⟩
    · rcases hwf.shape _ hkv with ⟨m, hgm, he⟩ | ⟨m, hgm, hpm, he⟩
      · exact Or.inl ⟨m, hgm, he⟩
      · by_cases hmid : m.ID = l.ID
        · have g1 := mem_getState hwf.nodup hpm
          have g2 := mem_getState hwf.nodup hmem
          rw [hmid, g2] at g1
          injection g1 with g1
          injection g1 with g1
          refine Or.inr ⟨l', hgood', (hmemP).2 (Or.inl ⟨hid, rfl⟩), ?_⟩
          rw [he, ← g1, ← hkey]
        · exact Or.inr ⟨m, hgm, (hmemP).2 (Or.inr ⟨hpm, hmid⟩), he⟩
  · intro m hm
    rw [hmemP] at hm
    rcases hm with ⟨hk, hv⟩ | ⟨hm, hk⟩
    · injection hv with hv
      have hidx := hwf.idx l hmem
      rw [hmemP]
      refine Or.inr ⟨?_, ?_⟩
      · rw [hv, hkey]
        exact hidx
      · rw [hv, hkey]
        exact labIndexKey_ne_id l hGl.2.1
    · have hidx := hwf.idx m hm
      rw [hmemP]
      exact Or.inr ⟨hidx, labIndexKey_ne_id m hGl.2.1⟩

/-- An update-style operation (`ReadLab` then overwrite with unchanged
`DocType`/`ID`/`ClassID`) preserves the Lab store invariant. -/
theorem LabWF_update_run {s : Store} (hwf : LabWF s)
    {labID : String} (h1 : NF labID) {lab : Lab} (hR : ReadLab s labID = .ok lab)
    (l' : Lab) (hD : l'.DocType = lab.DocType) (hI : l'.ID = lab.ID)
    (hC : l'.ClassID = lab.ClassID) :
    LabWF (putStore s labID (.labJson l')) := by
  obtain ⟨hg, hid, hmem⟩ := ReadLab_ok hwf h1 hR
  have hgood' : GoodLab l' :=
    ⟨hD.trans hg.1, by rw [hI]; exact hg.2.1, by rw [hC]; exact hg.2.2⟩
  have hkey : labIndexKey l' = labIndexKey lab := by
    unfold labIndexKey
    rw [hI, hC]
  have hmem' : (lab.ID, Bytes.labJson lab) ∈ s := by
    rw [hid]
    exact hmem
  have := LabWF_update hwf hgood' hmem' (hI) hkey
  rw [hid] at this
  exact this

/-- Control-flow reduction of `DeleteLab` when the read fails. -/
theorem DeleteLab_run_error (c : Ctx) (s : Store) (labID clientID : String) {e : GoErr}
    (hR : ReadLab s labID = .error e) :
    DeleteLab c s labID clientID = (.error e, s) := by
  rw [DeleteLab, hR]

/-- Control-flow reduction of `DeleteLab` when the read succeeds. -/
theorem DeleteLab_run (c : Ctx) (s : Store) (labID clientID : String) {lab : Lab}
    (hR : ReadLab s labID = .ok lab) :
    DeleteLab c s labID clientID =
      if clientID ≠ lab.Owner then (.error .notAuthorized, s)
      else (.ok (), delState (delState s labID) (labIndexKey lab)) := by
  rw [DeleteLab, hR]
  rfl

theorem UpdateLabContent_run_error (c : Ctx) (s : Store)
    (labID newContent clientID : String) {e : GoErr} (hR : ReadLab s labID = .error e) :
    UpdateLabContent c s labID newContent clientID = (.error e, s) := by
  rw [UpdateLabContent, hR]

theorem UpdateLabContent_run {c : Ctx} (hc : c.failPut = []) (s : Store)
    (labID newContent clientID : String) {lab : Lab} (hR : ReadLab s labID = .ok lab) :
    UpdateLabContent c s labID newContent clientID =
      if clientID ≠ lab.Owner then (.error .notAuthorized, s)
      else (.ok (), putStore s labID (.labJson { lab with Content := newContent })) := by
  rw [UpdateLabContent, hR]
  by_cases hcl : clientID ≠ lab.Owner
  · simp only [if_pos hcl]
  · simp only [if_neg hcl]
    simp [putState, hc]

theorem UpdateLabImage_run_error (c : Ctx) (s : Store)
    (labID newImage clientID : String) {e : GoErr} (hR : ReadLab s labID = .error e) :
    UpdateLabImage c s labID newImage clientID = (.error e, s) := by
  rw [UpdateLabImage, hR]

theorem UpdateLabImage_run {c : Ctx} (hc : c.failPut = []) (s : Store)
    (labID newImage clientID : String) {lab : Lab} (hR : ReadLab s labID = .ok lab) :
    UpdateLabImage c s labID newImage clientID =
      if clientID ≠ lab.Owner then (.error .notAuthorized, s)
      else (.ok (), putStore s labID (.labJson { lab with Image := newImage })) := by
  rw [UpdateLabImage, hR]
  by_cases hcl : clientID ≠ lab.Owner
  · simp only [if_pos hcl]
  · simp only [if_neg hcl]
    simp [putState, hc]

theorem UpdateLabEndtime_run_error (c : Ctx) (s : Store)
    (labID newTime clientID : String) {e : GoErr} (hR : ReadLab s labID = .error e) :
    UpdateLabEndtime c s labID newTime clientID = (.error e, s) := by
  rw [UpdateLabEndtime, hR]

theorem UpdateLabEndtime_run {c : Ctx} (hc : c.failPut = []) (s : Store)
    (labID newTime clientID : String) {lab : Lab} (hR : ReadLab s labID = .ok lab) :
    UpdateLabEndtime c s labID newTime clientID =
      if clientID ≠ lab.Owner then (.error .notAuthorized, s)
      else (.ok (), putStore s labID (.labJson { lab with EndTime := newTime })) := by
  rw [UpdateLabEndtime, hR]
  by_cases hcl : clientID ≠ lab.Owner
  · simp only [if_pos hcl]
  · simp only [if_neg hcl]
    simp [putState, hc]

theorem UpdateLab_run_error (c : Ctx) (s : Store)
    (labID newImage newName newContent newStartTime newEndTime clientID : String)
    {e : GoErr} (hR : ReadLab s labID = .error e) :
    UpdateLab c s labID newImage newName newContent newStartTime newEndTime clientID =
      (.error e, s) := by
  rw [UpdateLab, hR]

theorem UpdateLab_run {c : Ctx} (hc : c.failPut = []) (s : Store)
    (labID newImage newName newContent newStartTime newEndTime clientID : String)
    {lab : Lab} (hR : ReadLab s labID = .ok lab) :
    UpdateLab c s labID newImage newName newContent newStartTime newEndTime clientID =
      if clientID ≠ lab.Owner then (.error .notAuthorized, s)
      else (.ok (), putStore s labID (.labJson
        { lab with Image := newImage, Name := newName, Content := newContent,
                   StartTime := newStartTime, EndTime := newEndTime })) := by
  rw [UpdateLab, hR]
  by_cases hcl : clientID ≠ lab.Owner
  · simp only [if_pos hcl]
  · simp only [if_neg hcl]
    simp [putState, hc]

/-- Every committed well-formed Lab operation preserves the store invariant. -/
theorem LabWF_commit {c : Ctx} (hc : c.failPut = []) {s : Store} {op : LabOp}
    (hwf : LabWF s) (hop : op.WF) : LabWF (LabOp.commit c s op) := by
  cases op with
  | create labID classID name content image startTime endTime owner =>
    obtain ⟨h1, h2, -⟩ := hop
    rw [LabOp.commit]
    simp only [LabOp.run]
    rw [CreateLab_run hc]
    by_cases hex : (getState s labID).isSome
    · rw [if_pos hex]
      exact hwf
    · rw [if_neg hex]
      exact LabWF_create hwf h1 h2 (Option.not_isSome_iff_eq_none.1 hex)
  | delete labID clientID =>
    obtain ⟨h1, -⟩ := hop
    rw [LabOp.commit]
    simp only [LabOp.run]
    cases hR : ReadLab s labID with
    | error e =>
      rw [DeleteLab_run_error c s labID clientID hR]
      exact hwf
    | ok lab =>
      rw [DeleteLab_run c s labID clientID hR]
      by_cases hcl : clientID ≠ lab.Owner
      · rw [if_pos hcl]
        exact hwf
      · rw [if_neg hcl]
        obtain ⟨hg, hid, hmem⟩ := ReadLab_ok hwf h1 hR
        have hmem' : (lab.ID, Bytes.labJson lab) ∈ s := by
          rw [hid]
          exact hmem
        have := LabWF_delete hwf hg hmem'
        rw [hid] at this
        exact this
  | updateContent labID newContent clientID =>
    obtain ⟨h1, -⟩ := hop
    rw [LabOp.commit]
    simp only [LabOp.run]
    cases hR : ReadLab s labID with
    | error e =>
      rw [UpdateLabContent_run_error c s labID newContent clientID hR]
      exact hwf
    | ok lab =>
      rw [UpdateLabContent_run hc s labID newContent clientID hR]
      by_cases hcl : clientID ≠ lab.Owner
      · rw [if_pos hcl]
        exact hwf
      · rw [if_neg hcl]
        exact LabWF_update_run hwf h1 hR _ rfl rfl rfl
  | updateImage labID newImage clientID =>
    obtain ⟨h1, -⟩ := hop
    rw [LabOp.commit]
    simp only [LabOp.run]
    cases hR : ReadLab s labID with
    | error e =>
      rw [UpdateLabImage_run_error c s labID newImage clientID hR]
      exact hwf
    | ok lab =>
      rw [UpdateLabImage_run hc s labID newImage clientID hR]
      by_cases hcl : clientID ≠ lab.Owner
      · rw [if_pos hcl]
        exact hwf
      · rw [if_neg hcl]
        exact LabWF_update_run hwf h1 hR _ rfl rfl rfl
  | updateEndtime labID newTime clientID =>
    obtain ⟨h1, -⟩ := hop
    rw [LabOp.commit]
    simp only [LabOp.run]
    cases hR : ReadLab s labID with
    | error e =>
      rw [UpdateLabEndtime_run_error c s labID newTime clientID hR]
      exact hwf
    | ok lab =>
      rw [UpdateLabEndtime_run hc s labID newTime clientID hR]
      by_cases hcl : clientID ≠ lab.Owner
      · rw [if_pos hcl]
        exact hwf
      · rw [if_neg hcl]
        exact LabWF_update_run hwf h1 hR _ rfl rfl rfl
  | update labID newImage newName newContent newStartTime newEndTime clientID =>
    obtain ⟨h1, -⟩ := hop
    rw [LabOp.commit]
    simp only [LabOp.run]
    cases hR : ReadLab s labID with
    | error e =>
      rw [UpdateLab_run_error c s labID newImage newName newContent newStartTime newEndTime
        clientID hR]
      exact hwf
    | ok lab =>
      rw [UpdateLab_run hc s labID newImage newName newContent newStartTime newEndTime
        clientID hR]
      by_cases hcl : clientID ≠ lab.Owner
      · rw [if_pos hcl]
        exact hwf
      · rw [if_neg hcl]
        exact LabWF_update_run hwf h1 hR _ rfl rfl rfl

/-- Every reachable Lab store satisfies the shape invariant. -/
theorem LabReach_WF {c : Ctx} (hc : c.failPut = []) {s : Store}
    (h : LabReach c s) : LabWF s := by
  induction h with
  | init =>
    refine ⟨List.nodup_nil, ?_, ?_⟩
    · intro kv hkv
      simp at hkv
    · intro l hl
      simp at hl
  | step hr hop ih => exact LabWF_commit hc ih hop

end LabC

/-- Composite keys with different index names differ. -/
theorem createCompositeKey_ne_name {o o' : String} {as as' : List String}
    (ho : NF o) (ho' : NF o') (has : ∀ a ∈ as, NF a) (has' : ∀ a ∈ as', NF a)
    (hne : o ≠ o') : createCompositeKey o as ≠ createCompositeKey o' as' :=
  fun he => hne (createCompositeKey_inj ho ho' has has' he).1

/-! ## Instance contract: invariant preservation and reachability -/

namespace InstanceC

theorem NF_index1 : NF index1 := by decide

theorem NF_index2 : NF index2 := by decide

theorem NF_index3 : NF index3 := by decide

theorem NF_pair {a b : String} (ha : NF a) (hb : NF b) : ∀ x ∈ [a, b], NF x := by
  intro x hx
  simp only [List.mem_cons, List.not_mem_nil, or_false] at hx
  rcases hx with hx | hx <;> rw [hx] <;> assumption

theorem instIndexKey1_inj {i i' : Instance} (h : GoodInstance i) (h' : GoodInstance i')
    (he : instIndexKey1 i = instIndexKey1 i') : i.LabID = i'.LabID ∧ i.ID = i'.ID := by
  obtain ⟨-, hid, hlab, -, -⟩ := h
  obtain ⟨-, hid', hlab', -, -⟩ := h'
  obtain ⟨-, hlist⟩ := createCompositeKey_inj NF_index1 NF_index1
    (NF_pair hlab hid) (NF_pair hlab' hid') he
  simp only [List.cons.injEq, and_true] at hlist
  exact ⟨hlist.1, hlist.2⟩

theorem instIndexKey2_inj {i i' : Instance} (h : GoodInstance i) (h' : GoodInstance i')
    (he : instIndexKey2 i = instIndexKey2 i') : i.ClassID = i'.ClassID ∧ i.ID = i'.ID := by
  obtain ⟨-, hid, -, hcl, -⟩ := h
  obtain ⟨-, hid', -, hcl', -⟩ := h'
  obtain ⟨-, hlist⟩ := createCompositeKey_inj NF_index2 NF_index2
    (NF_pair hcl hid) (NF_pair hcl' hid') he
  simp only [List.cons.injEq, and_true] at hlist
  exact ⟨hlist.1, hlist.2⟩

theorem instIndexKey3_inj {i i' : Instance} (h : GoodInstance i) (h' : GoodInstance i')
    (he : instIndexKey3 i = instIndexKey3 i') : i.Owner = i'.Owner ∧ i.ID = i'.ID := by
  obtain ⟨-, hid, -, -, how⟩ := h
  obtain ⟨-, hid', -, -, how'⟩ := h'
  obtain ⟨-, hlist⟩ := createCompositeKey_inj NF_index3 NF_index3
    (NF_pair how hid) (NF_pair how' hid') he
  simp only [List.cons.injEq, and_true] at hlist
  exact ⟨hlist.1, hlist.2⟩

theorem instIndexKey1_ne_id (i : Instance) {id : String} (h : NF id) : instIndexKey1 i ≠ id :=
  createCompositeKey_ne_id _ _ h

theorem instIndexKey2_ne_id (i : Instance) {id : String} (h : NF id) : instIndexKey2 i ≠ id :=
  createCompositeKey_ne_id _ _ h

theorem instIndexKey3_ne_id (i : Instance) {id : String} (h : NF id) : instIndexKey3 i ≠ id :=
  createCompositeKey_ne_id _ _ h

theorem instKey12_ne (i i' : Instance) (h : GoodInstance i) (h' : GoodInstance i') :
    instIndexKey1 i ≠ instIndexKey2 i' :=
  createCompositeKey_ne_name NF_index1 NF_index2 (NF_pair h.2.2.1 h.2.1)
    (NF_pair h'.2.2.2.1 h'.2.1) (by decide)

theorem instKey13_ne (i i' : Instance) (h : GoodInstance i) (h' : GoodInstance i') :
    instIndexKey1 i ≠ instIndexKey3 i' :=
  createCompositeKey_ne_name NF_index1 NF_index3 (NF_pair h.2.2.1 h.2.1)
    (NF_pair h'.2.2.2.2 h'.2.1) (by decide)

theorem instKey23_ne (i i' : Instance) (h : GoodInstance i) (h' : GoodInstance i') :
    instIndexKey2 i ≠ instIndexKey3 i' :=
  createCompositeKey_ne_name NF_index2 NF_index3 (NF_pair h.2.2.2.1 h.2.1)
    (NF_pair h'.2.2.2.2 h'.2.1) (by decide)

/-- A successful `ReadInstance` on a well-formed store returns the stored record. -/
theorem ReadInstance_ok {s : Store} (hwf : InstanceWF s) {instanceID : String}
    (hid : NF instanceID) {i : Instance}
    (h : ReadInstance s instanceID = .ok i) :
    GoodInstance i ∧ i.ID = instanceID ∧ (instanceID, Bytes.instanceJson i) ∈ s := by
  unfold ReadInstance at h
  cases hg : getState s instanceID with
  | none => rw [hg] at h; exact absurd h (by simp)
  | some b =>
    rw [hg] at h
    have hmem := getState_eq_some_mem hg
    rcases hwf.shape _ hmem with ⟨i', hgood, hkv⟩ | ⟨i', hgood, -, hkv⟩
    · have e1 : instanceID = i'.ID := congrArg Prod.fst hkv
      have e2 : b = Bytes.instanceJson i' := congrArg Prod.snd hkv
      rw [e2] at h
      simp only [unmarshalInstance] at h
      injection h with h
      exact ⟨h ▸ hgood, by rw [← h]; exact e1.symm, by rw [← h, ← e2]; exact hmem⟩
    · exfalso
      rcases hkv with hkv | hkv | hkv
      · exact instIndexKey1_ne_id i' hid (congrArg Prod.fst hkv).symm
      · exact instIndexKey2_ne_id i' hid (congrArg Prod.fst hkv).symm
      · exact instIndexKey3_ne_id i' hid (congrArg Prod.fst hkv).symm

/-- Control-flow reduction of `CreateInstance` in a context without injected
write failures. -/
theorem CreateInstance_run {c : Ctx} (hc : c.failPut = []) (s : Store)
    (instanceID labID classID config owner : String) :
    CreateInstance c s instanceID labID classID config owner =
      if (getState s instanceID).isSome then (.error (.alreadyExists labID), s)
      else
        (.ok (), putStore (putStore (putStore (putStore s instanceID
            (.instanceJson ⟨"instance", instanceID, classID, labID, config, owner⟩))
          (createCompositeKey index1 [labID, instanceID]) .nullByte)
          (createCompositeKey index2 [classID, instanceID]) .nullByte)
          (createCompositeKey index3 [owner, instanceID]) .nullByte) := by
  simp [CreateInstance, InstanceExists, putState, hc]

/-- A primary entry of a well-formed Instance store holds a well-formed record. -/
theorem InstanceWF_good {s : Store} (hwf : InstanceWF s) {m : Instance}
    (hm : (m.ID, Bytes.instanceJson m) ∈ s) : GoodInstance m := by
  rcases hwf.shape _ hm with ⟨i', hgood', he⟩ | ⟨i', -, -, he⟩
  · have hv : Bytes.instanceJson m = Bytes.instanceJson i' := congrArg Prod.snd he
    injection hv with hv
    rw [hv]
    exact hgood'
  · exfalso
    rcases he with he | he | he <;>
      exact Bytes.noConfusion (congrArg Prod.snd he)

/-- `CreateInstance` on a fresh id preserves the Instance store invariant. -/
theorem InstanceWF_create {s : Store} (hwf : InstanceWF s)
    {instanceID labID classID config owner : String}
    (hid : NF instanceID) (hlab : NF labID) (hcl : NF classID) (how : NF owner)
    (hfresh : getState s instanceID = none) :
    InstanceWF (putStore (putStore (putStore (putStore s instanceID
        (.instanceJson ⟨"instance", instanceID, classID, labID, config, owner⟩))
      (createCompositeKey index1 [labID, instanceID]) .nullByte)
      (createCompositeKey index2 [classID, instanceID]) .nullByte)
      (createCompositeKey index3 [owner, instanceID]) .nullByte) := by
  set i : Instance := ⟨"instance", instanceID, classID, labID, config, owner⟩ with hi
  have hgood : GoodInstance i := ⟨rfl, hid, hlab, hcl, how⟩
  have hk1 : createCompositeKey index1 [labID, instanceID] = instIndexKey1 i := rfl
  have hk2 : createCompositeKey index2 [classID, instanceID] = instIndexKey2 i := rfl
  have hk3 : createCompositeKey index3 [owner, instanceID] = instIndexKey3 i := rfl
  rw [hk1, hk2, hk3]
  have hfresh1 : ∀ kv ∈ s, kv.1 ≠ instanceID := getState_eq_none_iff.1 hfresh
  have hnd1 : KeysND (putStore s instanceID (.instanceJson i)) :=
    keysND_putStore _ _ hwf.nodup
  have hnd2 := keysND_putStore (instIndexKey1 i) Bytes.nullByte hnd1
  have hnd3 := keysND_putStore (instIndexKey2 i) Bytes.nullByte hnd2
  have hK12 := instKey12_ne i i hgood hgood
  have hK13 := instKey13_ne i i hgood hgood
  have hK23 := instKey23_ne i i hgood hgood
  have hm : ∀ {k : String} {v : Bytes},
      (k, v) ∈ putStore (putStore (putStore (putStore s instanceID (.instanceJson i))
          (instIndexKey1 i) .nullByte) (instIndexKey2 i) .nullByte)
          (instIndexKey3 i) .nullByte ↔
      (k = instanceID ∧ v = .instanceJson i) ∨
      (k = instIndexKey1 i ∧ v = .nullByte) ∨
      (k = instIndexKey2 i ∧ v = .nullByte) ∨
      (k = instIndexKey3 i ∧ v = .nullByte) ∨
      ((k, v) ∈ s ∧ k ≠ instanceID ∧ k ≠ instIndexKey1 i ∧ k ≠ instIndexKey2 i ∧
        k ≠ instIndexKey3 i) := by
    intro k v
    rw [mem_putStore hnd3, mem_putStore hnd2, mem_putStore hnd1, mem_putStore hwf.nodup]
    constructor
    · rintro (⟨e, hv⟩ | ⟨((⟨e, hv⟩ | ⟨(⟨e, hv⟩ | ⟨(⟨e, hv⟩ | ⟨hkv, hne⟩), hne1⟩), hne2⟩)), hne3⟩)
      · exact Or.inr (Or.inr (Or.inr (Or.inl ⟨e, hv⟩)))
      · exact Or.inr (Or.inr (Or.inl ⟨e, hv⟩))
      · exact Or.inr (Or.inl ⟨e, hv⟩)
      · exact Or.inl ⟨e, hv⟩
      · exact Or.inr (Or.inr (Or.inr (Or.inr ⟨hkv, hne, hne1, hne2, hne3⟩)))
    · rintro (⟨e, hv⟩ | ⟨e, hv⟩ | ⟨e, hv⟩ | ⟨e, hv⟩ | ⟨hkv, hne, hne1, hne2, hne3⟩)
      · refine Or.inr ⟨Or.inr ⟨Or.inr ⟨Or.inl ⟨e, hv⟩, ?_⟩, ?_⟩, ?_⟩
        · rw [e]; exact fun he => instIndexKey1_ne_id i hid he.symm
        · rw [e]; exact fun he => instIndexKey2_ne_id i hid he.symm
        · rw [e]; exact fun he => instIndexKey3_ne_id i hid he.symm
      · refine Or.inr ⟨Or.inr ⟨Or.inl ⟨e, hv⟩, ?_⟩, ?_⟩
        · rw [e]; exact hK12
        · rw [e]; exact hK13
      · refine Or.inr ⟨Or.inl ⟨e, hv⟩, ?_⟩
        · rw [e]; exact hK23
      · exact Or.inl ⟨e, hv⟩
      · exact Or.inr ⟨Or.inr ⟨Or.inr ⟨Or.inr ⟨hkv, hne⟩, hne1⟩, hne2⟩, hne3⟩
  have hprim : (i.ID, Bytes.instanceJson i) ∈ putStore (putStore (putStore (putStore s
      instanceID (.instanceJson i)) (instIndexKey1 i) .nullByte) (instIndexKey2 i) .nullByte)
      (instIndexKey3 i) .nullByte := by
    rw [hm]
    exact Or.inl ⟨rfl, rfl⟩
  refine ⟨keysND_putStore _ _ hnd3, ?_, ?_⟩
  · rintro ⟨k, v⟩ hkv
    rw [hm] at hkv
    rcases hkv with ⟨e, hv⟩ | ⟨e, hv⟩ | ⟨e, hv⟩ | ⟨e, hv⟩ | ⟨hkv, -, -, -, -⟩
    · exact Or.inl ⟨i, hgood, by rw [e, hv]⟩
    · exact Or.inr ⟨i, hgood, hprim, Or.inl (by rw [e, hv])⟩
    · exact Or.inr ⟨i, hgood, hprim, Or.inr (Or.inl (by rw [e, hv]))⟩
    · exact Or.inr ⟨i, hgood, hprim, Or.inr (Or.inr (by rw [e, hv]))⟩
    · rcases hwf.shape _ hkv with ⟨m, hgm, he⟩ | ⟨m, hgm, hpm, he⟩
      · exact Or.inl ⟨m, hgm, he⟩
      · refine Or.inr ⟨m, hgm, ?_, he⟩
        rw [hm]
        refine Or.inr (Or.inr (Or.inr (Or.inr ⟨hpm, hfresh1 _ hpm, ?_, ?_, ?_⟩)))
        · exact (instIndexKey1_ne_id i hgm.2.1).symm
        · exact (instIndexKey2_ne_id i hgm.2.1).symm
        · exact (instIndexKey3_ne_id i hgm.2.1).symm
  · intro m hmm
    rw [hm] at hmm
    rcases hmm with ⟨e, hv⟩ | ⟨e, hv⟩ | ⟨e, hv⟩ | ⟨e, hv⟩ | ⟨hkv, hne, -, -, -⟩
    · have : m = i := by injection hv
      rw [this]
      refine ⟨?_, ?_, ?_⟩ <;> rw [hm]
      · exact Or.inr (Or.inl ⟨rfl, rfl⟩)
      · exact Or.inr (Or.inr (Or.inl ⟨rfl, rfl⟩))
      · exact Or.inr (Or.inr (Or.inr (Or.inl ⟨rfl, rfl⟩)))
    · exact absurd hv (by simp)
    · exact absurd hv (by simp)
    · exact absurd hv (by simp)
    · have hgm := InstanceWF_good hwf hkv
      obtain ⟨hi1, hi2, hi3⟩ := hwf.idx m hkv
      have hmne : m.ID ≠ i.ID := hne
      refine ⟨?_, ?_, ?_⟩ <;> rw [hm]
      · by_cases hsame : instIndexKey1 m = instIndexKey1 i
        · exact Or.inr (Or.inl ⟨hsame, rfl⟩)
        · refine Or.inr (Or.inr (Or.inr (Or.inr ⟨hi1, instIndexKey1_ne_id m hid, hsame,
            instKey12_ne m i hgm hgood, instKey13_ne m i hgm hgood⟩)))
      · by_cases hsame : instIndexKey2 m = instIndexKey2 i
        · exact Or.inr (Or.inr (Or.inl ⟨hsame, rfl⟩))
        · refine Or.inr (Or.inr (Or.inr (Or.inr ⟨hi2, instIndexKey2_ne_id m hid,
            (instKey12_ne i m hgood hgm).symm, hsame, instKey23_ne m i hgm hgood⟩)))
      · by_cases hsame : instIndexKey3 m = instIndexKey3 i
        · exact Or.inr (Or.inr (Or.inr (Or.inl ⟨hsame, rfl⟩)))
        · refine Or.inr (Or.inr (Or.inr (Or.inr ⟨hi3, instIndexKey3_ne_id m hid,
            (instKey13_ne i m hgood hgm).symm, (instKey23_ne i m hgood hgm).symm, hsame⟩)))

/-- `DeleteInstance`'s four deletions preserve the Instance store invariant. -/
theorem InstanceWF_delete {s : Store} (hwf : InstanceWF s) {i : Instance}
    (hgood : GoodInstance i) (hmem : (i.ID, Bytes.instanceJson i) ∈ s) :
    InstanceWF (delState (delState (delState (delState s i.ID)
      (instIndexKey1 i)) (instIndexKey2 i)) (instIndexKey3 i)) := by
  have hnd1 := keys_delState_sub s i.ID hwf.nodup
  have hnd2 := keys_delState_sub _ (instIndexKey1 i) hnd1
  have hnd3 := keys_delState_sub _ (instIndexKey2 i) hnd2
  have hnd4 := keys_delState_sub _ (instIndexKey3 i) hnd3
  have hm : ∀ {k : String} {v : Bytes},
      (k, v) ∈ delState (delState (delState (delState s i.ID)
        (instIndexKey1 i)) (instIndexKey2 i)) (instIndexKey3 i) ↔
      (k, v) ∈ s ∧ k ≠ i.ID ∧ k ≠ instIndexKey1 i ∧ k ≠ instIndexKey2 i ∧
        k ≠ instIndexKey3 i := by
    intro k v
    rw [mem_delState, mem_delState, mem_delState, mem_delState]
    tauto
  refine ⟨hnd4, ?_, ?_⟩
  · rintro ⟨k, v⟩ hkv
    rw [hm] at hkv
    obtain ⟨hkv, hne, hne1, hne2, hne3⟩ := hkv
    rcases hwf.shape _ hkv with ⟨m, hgm, he⟩ | ⟨m, hgm, hpm, he⟩
    · exact Or.inl ⟨m, hgm, he⟩
    · refine Or.inr ⟨m, hgm, ?_, he⟩
      rw [hm]
      refine ⟨hpm, ?_, (instIndexKey1_ne_id i hgm.2.1).symm,
        (instIndexKey2_ne_id i hgm.2.1).symm, (instIndexKey3_ne_id i hgm.2.1).symm⟩
      intro he'
      have g1 := mem_getState hwf.nodup hpm
      have g2 := mem_getState hwf.nodup hmem
      rw [he', g2] at g1
      injection g1 with g1
      injection g1 with g1
      rcases he with he | he | he
      · refine hne1 ?_
        have he1 : k = instIndexKey1 m := congrArg Prod.fst he
        rw [he1, ← g1]
      · refine hne2 ?_
        have he1 : k = instIndexKey2 m := congrArg Prod.fst he
        rw [he1, ← g1]
      · refine hne3 ?_
        have he1 : k = instIndexKey3 m := congrArg Prod.fst he
        rw [he1, ← g1]
  · intro m hmm
    rw [hm] at hmm
    obtain ⟨hmm, hne, -, -, -⟩ := hmm
    have hgm := InstanceWF_good hwf hmm
    obtain ⟨hi1, hi2, hi3⟩ := hwf.idx m hmm
    have hmi : m.ID ≠ i.ID := hne
    have hdiff : ∀ j : Fin 3, True := fun _ => trivial
    refine ⟨?_, ?_, ?_⟩ <;> rw [hm]
    · refine ⟨hi1, instIndexKey1_ne_id m hgood.2.1, ?_,
        instKey12_ne m i hgm hgood, instKey13_ne m i hgm hgood⟩
      intro he
      exact hmi (instIndexKey1_inj hgm hgood he).2
    · refine ⟨hi2, instIndexKey2_ne_id m hgood.2.1,
        (instKey12_ne i m hgood hgm).symm, ?_, instKey23_ne m i hgm hgood⟩
      intro he
      exact hmi (instIndexKey2_inj hgm hgood he).2
    · refine ⟨hi3, instIndexKey3_ne_id m hgood.2.1,
        (instKey13_ne i m hgood hgm).symm, (instKey23_ne i m hgood hgm).symm, ?_⟩
      intro he
      exact hmi (instIndexKey3_inj hgm hgood he).2

/-- Control-flow reduction of `DeleteInstance` when the read fails. -/
theorem DeleteInstance_run_error (c : Ctx) (s : Store) (instanceID clientID : String)
    {e : GoErr} (hR : ReadInstance s instanceID = .error e) :
    DeleteInstance c s instanceID clientID = (.error e, s) := by
  rw [DeleteInstance, hR]

/-- Control-flow reduction of `DeleteInstance` when the read succeeds. -/
theorem DeleteInstance_run (c : Ctx) (s : Store) (instanceID clientID : String)
    {i : Instance} (hR : ReadInstance s instanceID = .ok i) :
    DeleteInstance c s instanceID clientID =
      if clientID ≠ i.Owner then (.error .notAuthorized, s)
      else (.ok (), delState (delState (delState (delState s instanceID)
        (instIndexKey1 i)) (instIndexKey2 i)) (instIndexKey3 i)) := by
  rw [DeleteInstance, hR]
  rfl

/-- Every committed well-formed Instance operation preserves the store invariant. -/
theorem InstanceWF_commit {c : Ctx} (hc : c.failPut = []) {s : Store} {op : InstanceOp}
    (hwf : InstanceWF s) (hop : op.WF) : InstanceWF (InstanceOp.commit c s op) := by
  cases op with
  | create instanceID labID classID config owner =>
    obtain ⟨h1, h2, h3, -, h5⟩ := hop
    rw [InstanceOp.commit]
    simp only [InstanceOp.run]
    rw [CreateInstance_run hc]
    by_cases hex : (getState s instanceID).isSome
    · rw [if_pos hex]
      exact hwf
    · rw [if_neg hex]
      exact InstanceWF_create hwf h1 h2 h3 h5 (Option.not_isSome_iff_eq_none.1 hex)
  | delete instanceID clientID =>
    obtain ⟨h1, -⟩ := hop
    rw [InstanceOp.commit]
    simp only [InstanceOp.run]
    cases hR : ReadInstance s instanceID with
    | error e =>
      rw [DeleteInstance_run_error c s instanceID clientID hR]
      exact hwf
    | ok i =>
      rw [DeleteInstance_run c s instanceID clientID hR]
      by_cases hcl : clientID ≠ i.Owner
      · rw [if_pos hcl]
        exact hwf
      · rw [if_neg hcl]
        obtain ⟨hg, hid, hmem⟩ := ReadInstance_ok hwf h1 hR
        have hmem' : (i.ID, Bytes.instanceJson i) ∈ s := by
          rw [hid]
          exact hmem
        have := InstanceWF_delete hwf hg hmem'
        rw [hid] at this
        exact this

/-- Every reachable Instance store satisfies the shape invariant. -/
theorem InstanceReach_WF {c : Ctx} (hc : c.failPut = []) {s : Store}
    (h : InstanceReach c s) : InstanceWF s := by
  induction h with
  | init =>
    refine ⟨List.nodup_nil, ?_, ?_⟩
    · intro kv hkv
      simp at hkv
    · intro i hi
      simp at hi
  | step hr hop ih => exact InstanceWF_commit hc ih hop

end InstanceC

/-! ## Submission contract: invariant preservation and reachability -/

namespace SubmissionC

theorem NF_subIdx1 : NF index1 := by decide

theorem NF_subIdx2 : NF index2 := by decide

theorem NF_subIdx3 : NF index3 := by decide

theorem subIndexKey1_inj {x y : Submission} (h : GoodSubmission x) (h' : GoodSubmission y)
    (he : subIndexKey1 x = subIndexKey1 y) : x.LabID = y.LabID ∧ x.ID = y.ID := by
  obtain ⟨-, hid, hlab, -, -⟩ := h
  obtain ⟨-, hid', hlab', -, -⟩ := h'
  obtain ⟨-, hlist⟩ := createCompositeKey_inj NF_subIdx1 NF_subIdx1
    (InstanceC.NF_pair hlab hid) (InstanceC.NF_pair hlab' hid') he
  simp only [List.cons.injEq, and_true] at hlist
  exact ⟨hlist.1, hlist.2⟩

theorem subIndexKey2_inj {x y : Submission} (h : GoodSubmission x) (h' : GoodSubmission y)
    (he : subIndexKey2 x = subIndexKey2 y) : x.ClassID = y.ClassID ∧ x.ID = y.ID := by
  obtain ⟨-, hid, -, hcl, -⟩ := h
  obtain ⟨-, hid', -, hcl', -⟩ := h'
  obtain ⟨-, hlist⟩ := createCompositeKey_inj NF_subIdx2 NF_subIdx2
    (InstanceC.NF_pair hcl hid) (InstanceC.NF_pair hcl' hid') he
  simp only [List.cons.injEq, and_true] at hlist
  exact ⟨hlist.1, hlist.2⟩

theorem subIndexKey3_inj {x y : Submission} (h : GoodSubmission x) (h' : GoodSubmission y)
    (he : subIndexKey3 x = subIndexKey3 y) : x.Owner = y.Owner ∧ x.ID = y.ID := by
  obtain ⟨-, hid, -, -, how⟩ := h
  obtain ⟨-, hid', -, -, how'⟩ := h'
  obtain ⟨-, hlist⟩ := createCompositeKey_inj NF_subIdx3 NF_subIdx3
    (InstanceC.NF_pair how hid) (InstanceC.NF_pair how' hid') he
  simp only [List.cons.injEq, and_true] at hlist
  exact ⟨hlist.1, hlist.2⟩

theorem subIndexKey1_ne_id (x : Submission) {id : String} (h : NF id) : subIndexKey1 x ≠ id :=
  createCompositeKey_ne_id _ _ h

theorem subIndexKey2_ne_id (x : Submission) {id : String} (h : NF id) : subIndexKey2 x ≠ id :=
  createCompositeKey_ne_id _ _ h

theorem subIndexKey3_ne_id (x : Submission) {id : String} (h : NF id) : subIndexKey3 x ≠ id :=
  createCompositeKey_ne_id _ _ h

theorem subKey12_ne (x y : Submission) (h : GoodSubmission x) (h' : GoodSubmission y) :
    subIndexKey1 x ≠ subIndexKey2 y :=
  createCompositeKey_ne_name NF_subIdx1 NF_subIdx2 (InstanceC.NF_pair h.2.2.1 h.2.1)
    (InstanceC.NF_pair h'.2.2.2.1 h'.2.1) (by decide)

theorem subKey13_ne (x y : Submission) (h : GoodSubmission x) (h' : GoodSubmission y) :
    subIndexKey1 x ≠ subIndexKey3 y :=
  createCompositeKey_ne_name NF_subIdx1 NF_subIdx3 (InstanceC.NF_pair h.2.2.1 h.2.1)
    (InstanceC.NF_pair h'.2.2.2.2 h'.2.1) (by decide)

theorem subKey23_ne (x y : Submission) (h : GoodSubmission x) (h' : GoodSubmission y) :
    subIndexKey2 x ≠ subIndexKey3 y :=
  createCompositeKey_ne_name NF_subIdx2 NF_subIdx3 (InstanceC.NF_pair h.2.2.2.1 h.2.1)
    (InstanceC.NF_pair h'.2.2.2.2 h'.2.1) (by decide)

/-- A successful `ReadSubmission` on a well-formed store returns the stored record. -/
theorem ReadSubmission_ok {s : Store} (hwf : SubmissionWF s) {submissionID : String}
    (hid : NF submissionID) {sb : Submission}
    (h : ReadSubmission s submissionID = .ok sb) :
    GoodSubmission sb ∧ sb.ID = submissionID ∧ (submissionID, Bytes.submissionJson sb) ∈ s := by
  unfold ReadSubmission at h
  cases hg : getState s submissionID with
  | none => rw [hg] at h; exact absurd h (by simp)
  | some b =>
    rw [hg] at h
    have hmem := getState_eq_some_mem hg
    rcases hwf.shape _ hmem with ⟨x, hgood, hkv⟩ | ⟨x, hgood, -, hkv⟩
    · have e1 : submissionID = x.ID := congrArg Prod.fst hkv
      have e2 : b = Bytes.submissionJson x := congrArg Prod.snd hkv
      rw [e2] at h
      simp only [unmarshalSubmission] at h
      injection h with h
      exact ⟨h ▸ hgood, by rw [← h]; exact e1.symm, by rw [← h, ← e2]; exact hmem⟩
    · exfalso
      rcases hkv with hkv | hkv | hkv
      · exact subIndexKey1_ne_id x hid (congrArg Prod.fst hkv).symm
      · exact subIndexKey2_ne_id x hid (congrArg Prod.fst hkv).symm
      · exact subIndexKey3_ne_id x hid (congrArg Prod.fst hkv).symm

/-- Control-flow reduction of `CreateSubmission` without injected write failures. -/
theorem CreateSubmission_run {c : Ctx} (hc : c.failPut = []) (s : Store)
    (submissionID labID classID content owner : String) :
    CreateSubmission c s submissionID labID classID content owner =
      if (getState s submissionID).isSome then (.error (.alreadyExists labID), s)
      else
        (.ok (), putStore (putStore (putStore (putStore s submissionID
            (.submissionJson ⟨"submission", submissionID, classID, labID, content, owner, 0⟩))
          (createCompositeKey index1 [labID, submissionID]) .nullByte)
          (createCompositeKey index2 [classID, submissionID]) .nullByte)
          (createCompositeKey index3 [owner, submissionID]) .nullByte) := by
  simp [CreateSubmission, SubmissionExists, putState, hc]

/-- A primary entry of a well-formed Submission store holds a well-formed record. -/
theorem SubmissionWF_good {s : Store} (hwf : SubmissionWF s) {m : Submission}
    (hm : (m.ID, Bytes.submissionJson m) ∈ s) : GoodSubmission m := by
  rcases hwf.shape _ hm with ⟨x, hgood', he⟩ | ⟨x, -, -, he⟩
  · have hv : Bytes.submissionJson m = Bytes.submissionJson x := congrArg Prod.snd he
    injection hv with hv
    rw [hv]
    exact hgood'
  · exfalso
    rcases he with he | he | he <;>
      exact Bytes.noConfusion (congrArg Prod.snd he)

/-- `CreateSubmission` on a fresh id preserves the Submission store invariant. -/
theorem SubmissionWF_create {s : Store} (hwf : SubmissionWF s)
    {submissionID labID classID content owner : String}
    (hid : NF submissionID) (hlab : NF labID) (hcl : NF classID) (how : NF owner)
    (hfresh : getState s submissionID = none) :
    SubmissionWF (putStore (putStore (putStore (putStore s submissionID
        (.submissionJson ⟨"submission", submissionID, classID, labID, content, owner, 0⟩))
      (createCompositeKey index1 [labID, submissionID]) .nullByte)
      (createCompositeKey index2 [classID, submissionID]) .nullByte)
      (createCompositeKey index3 [owner, submissionID]) .nullByte) := by
  set sb : Submission := ⟨"submission", submissionID, classID, labID, content, owner, 0⟩
    with hsb
  have hgood : GoodSubmission sb := ⟨rfl, hid, hlab, hcl, how⟩
  have hk1 : createCompositeKey index1 [labID, submissionID] = subIndexKey1 sb := rfl
  have hk2 : createCompositeKey index2 [classID, submissionID] = subIndexKey2 sb := rfl
  have hk3 : createCompositeKey index3 [owner, submissionID] = subIndexKey3 sb := rfl
  rw [hk1, hk2, hk3]
  have hfresh1 : ∀ kv ∈ s, kv.1 ≠ submissionID := getState_eq_none_iff.1 hfresh
  have hnd1 : KeysND (putStore s submissionID (.submissionJson sb)) :=
    keysND_putStore _ _ hwf.nodup
  have hnd2 := keysND_putStore (subIndexKey1 sb) Bytes.nullByte hnd1
  have hnd3 := keysND_putStore (subIndexKey2 sb) Bytes.nullByte hnd2
  have hK12 := subKey12_ne sb sb hgood hgood
  have hK13 := subKey13_ne sb sb hgood hgood
  have hK23 := subKey23_ne sb sb hgood hgood
  have hm : ∀ {k : String} {v : Bytes},
      (k, v) ∈ putStore (putStore (putStore (putStore s submissionID (.submissionJson sb))
          (subIndexKey1 sb) .nullByte) (subIndexKey2 sb) .nullByte)
          (subIndexKey3 sb) .nullByte ↔
      (k = submissionID ∧ v = .submissionJson sb) ∨
      (k = subIndexKey1 sb ∧ v = .nullByte) ∨
      (k = subIndexKey2 sb ∧ v = .nullByte) ∨
      (k = subIndexKey3 sb ∧ v = .nullByte) ∨
      ((k, v) ∈ s ∧ k ≠ submissionID ∧ k ≠ subIndexKey1 sb ∧ k ≠ subIndexKey2 sb ∧
        k ≠ subIndexKey3 sb) := by
    intro k v
    rw [mem_putStore hnd3, mem_putStore hnd2, mem_putStore hnd1, mem_putStore hwf.nodup]
    constructor
    · rintro (⟨e, hv⟩ | ⟨((⟨e, hv⟩ | ⟨(⟨e, hv⟩ | ⟨(⟨e, hv⟩ | ⟨hkv, hne⟩), hne1⟩), hne2⟩)), hne3⟩)
      · exact Or.inr (Or.inr (Or.inr (Or.inl ⟨e, hv⟩)))
      · exact Or.inr (Or.inr (Or.inl ⟨e, hv⟩))
      · exact Or.inr (Or.inl ⟨e, hv⟩)
      · exact Or.inl ⟨e, hv⟩
      · exact Or.inr (Or.inr (Or.inr (Or.inr ⟨hkv, hne, hne1, hne2, hne3⟩)))
    · rintro (⟨e, hv⟩ | ⟨e, hv⟩ | ⟨e, hv⟩ | ⟨e, hv⟩ | ⟨hkv, hne, hne1, hne2, hne3⟩)
      · refine Or.inr ⟨Or.inr ⟨Or.inr ⟨Or.inl ⟨e, hv⟩, ?_⟩, ?_⟩, ?_⟩
        · rw [e]; exact fun he => subIndexKey1_ne_id sb hid he.symm
        · rw [e]; exact fun he => subIndexKey2_ne_id sb hid he.symm
        · rw [e]; exact fun he => subIndexKey3_ne_id sb hid he.symm
      · refine Or.inr ⟨Or.inr ⟨Or.inl ⟨e, hv⟩, ?_⟩, ?_⟩
        · rw [e]; exact hK12
        · rw [e]; exact hK13
      · refine Or.inr ⟨Or.inl ⟨e, hv⟩, ?_⟩
        · rw [e]; exact hK23
      · exact Or.inl ⟨e, hv⟩
      · exact Or.inr ⟨Or.inr ⟨Or.inr ⟨Or.inr ⟨hkv, hne⟩, hne1⟩, hne2⟩, hne3⟩
  have hprim : (sb.ID, Bytes.submissionJson sb) ∈ putStore (putStore (putStore (putStore s
      submissionID (.submissionJson sb)) (subIndexKey1 sb) .nullByte)
      (subIndexKey2 sb) .nullByte) (subIndexKey3 sb) .nullByte := by
    rw [hm]
    exact Or.inl ⟨rfl, rfl⟩
  refine ⟨keysND_putStore _ _ hnd3, ?_, ?_⟩
  · rintro ⟨k, v⟩ hkv
    rw [hm] at hkv
    rcases hkv with ⟨e, hv⟩ | ⟨e, hv⟩ | ⟨e, hv⟩ | ⟨e, hv⟩ | ⟨hkv, -, -, -, -⟩
    · exact Or.inl ⟨sb, hgood, by rw [e, hv]⟩
    · exact Or.inr ⟨sb, hgood, hprim, Or.inl (by rw [e, hv])⟩
    · exact Or.inr ⟨sb, hgood, hprim, Or.inr (Or.inl (by rw [e, hv]))⟩
    · exact Or.inr ⟨sb, hgood, hprim, Or.inr (Or.inr (by rw [e, hv]))⟩
    · rcases hwf.shape _ hkv with ⟨m, hgm, he⟩ | ⟨m, hgm, hpm, he⟩
      · exact Or.inl ⟨m, hgm, he⟩
      · refine Or.inr ⟨m, hgm, ?_, he⟩
        rw [hm]
        refine Or.inr (Or.inr (Or.inr (Or.inr ⟨hpm, hfresh1 _ hpm, ?_, ?_, ?_⟩)))
        · exact (subIndexKey1_ne_id sb hgm.2.1).symm
        · exact (subIndexKey2_ne_id sb hgm.2.1).symm
        · exact (subIndexKey3_ne_id sb hgm.2.1).symm
  · intro m hmm
    rw [hm] at hmm
    rcases hmm with ⟨e, hv⟩ | ⟨e, hv⟩ | ⟨e, hv⟩ | ⟨e, hv⟩ | ⟨hkv, hne, -, -, -⟩
    · have : m = sb := by injection hv
      rw [this]
      refine ⟨?_, ?_, ?_⟩ <;> rw [hm]
      · exact Or.inr (Or.inl ⟨rfl, rfl⟩)
      · exact Or.inr (Or.inr (Or.inl ⟨rfl, rfl⟩))
      · exact Or.inr (Or.inr (Or.inr (Or.inl ⟨rfl, rfl⟩)))
    · exact absurd hv (by simp)
    · exact absurd hv (by simp)
    · exact absurd hv (by simp)
    · have hgm := SubmissionWF_good hwf hkv
      obtain ⟨hi1, hi2, hi3⟩ := hwf.idx m hkv
      refine ⟨?_, ?_, ?_⟩ <;> rw [hm]
      · by_cases hsame : subIndexKey1 m = subIndexKey1 sb
        · exact Or.inr (Or.inl ⟨hsame, rfl⟩)
        · refine Or.inr (Or.inr (Or.inr (Or.inr ⟨hi1, subIndexKey1_ne_id m hid, hsame,
            subKey12_ne m sb hgm hgood, subKey13_ne m sb hgm hgood⟩)))
      · by_cases hsame : subIndexKey2 m = subIndexKey2 sb
        · exact Or.inr (Or.inr (Or.inl ⟨hsame, rfl⟩))
        · refine Or.inr (Or.inr (Or.inr (Or.inr ⟨hi2, subIndexKey2_ne_id m hid,
            (subKey12_ne sb m hgood hgm).symm, hsame, subKey23_ne m sb hgm hgood⟩)))
      · by_cases hsame : subIndexKey3 m = subIndexKey3 sb
        · exact Or.inr (Or.inr (Or.inr (Or.inl ⟨hsame, rfl⟩)))
        · refine Or.inr (Or.inr (Or.inr (Or.inr ⟨hi3, subIndexKey3_ne_id m hid,
            (subKey13_ne sb m hgood hgm).symm, (subKey23_ne sb m hgood hgm).symm, hsame⟩)))

/-- `DeleteSubmission`'s four deletions preserve the Submission store invariant. -/
theorem SubmissionWF_delete {s : Store} (hwf : SubmissionWF s) {sb : Submission}
    (hgood : GoodSubmission sb) (hmem : (sb.ID, Bytes.submissionJson sb) ∈ s) :
    SubmissionWF (delState (delState (delState (delState s sb.ID)
      (subIndexKey1 sb)) (subIndexKey2 sb)) (subIndexKey3 sb)) := by
  have hnd1 := keys_delState_sub s sb.ID hwf.nodup
  have hnd2 := keys_delState_sub _ (subIndexKey1 sb) hnd1
  have hnd3 := keys_delState_sub _ (subIndexKey2 sb) hnd2
  have hnd4 := keys_delState_sub _ (subIndexKey3 sb) hnd3
  have hm : ∀ {k : String} {v : Bytes},
      (k, v) ∈ delState (delState (delState (delState s sb.ID)
        (subIndexKey1 sb)) (subIndexKey2 sb)) (subIndexKey3 sb) ↔
      (k, v) ∈ s ∧ k ≠ sb.ID ∧ k ≠ subIndexKey1 sb ∧ k ≠ subIndexKey2 sb ∧
        k ≠ subIndexKey3 sb := by
    intro k v
    rw [mem_delState, mem_delState, mem_delState, mem_delState]
    tauto
  refine ⟨hnd4, ?_, ?_⟩
  · rintro ⟨k, v⟩ hkv
    rw [hm] at hkv
    obtain ⟨hkv, hne, hne1, hne2, hne3⟩ := hkv
    rcases hwf.shape _ hkv with ⟨m, hgm, he⟩ | ⟨m, hgm, hpm, he⟩
    · exact Or.inl ⟨m, hgm, he⟩
    · refine Or.inr ⟨m, hgm, ?_, he⟩
      rw [hm]
      refine ⟨hpm, ?_, (subIndexKey1_ne_id sb hgm.2.1).symm,
        (subIndexKey2_ne_id sb hgm.2.1).symm, (subIndexKey3_ne_id sb hgm.2.1).symm⟩
      intro he'
      have g1 := mem_getState hwf.nodup hpm
      have g2 := mem_getState hwf.nodup hmem
      rw [he', g2] at g1
      injection g1 with g1
      injection g1 with g1
      rcases he with he | he | he
      · refine hne1 ?_
        have he1 : k = subIndexKey1 m := congrArg Prod.fst he
        rw [he1, ← g1]
      · refine hne2 ?_
        have he1 : k = subIndexKey2 m := congrArg Prod.fst he
        rw [he1, ← g1]
      · refine hne3 ?_
        have he1 : k = subIndexKey3 m := congrArg Prod.fst he
        rw [he1, ← g1]
  · intro m hmm
    rw [hm] at hmm
    obtain ⟨hmm, hne, -, -, -⟩ := hmm
    have hgm := SubmissionWF_good hwf hmm
    obtain ⟨hi1, hi2, hi3⟩ := hwf.idx m hmm
    have hmi : m.ID ≠ sb.ID := hne
    refine ⟨?_, ?_, ?_⟩ <;> rw [hm]
    · refine ⟨hi1, subIndexKey1_ne_id m hgood.2.1, ?_,
        subKey12_ne m sb hgm hgood, subKey13_ne m sb hgm hgood⟩
      intro he
      exact hmi (subIndexKey1_inj hgm hgood he).2
    · refine ⟨hi2, subIndexKey2_ne_id m hgood.2.1,
        (subKey12_ne sb m hgood hgm).symm, ?_, subKey23_ne m sb hgm hgood⟩
      intro he
      exact hmi (subIndexKey2_inj hgm hgood he).2
    · refine ⟨hi3, subIndexKey3_ne_id m hgood.2.1,
        (subKey13_ne sb m hgood hgm).symm, (subKey23_ne sb m hgood hgm).symm, ?_⟩
      intro he
      exact hmi (subIndexKey3_inj hgm hgood he).2

/-- Re-serializing a stored Submission under the same key with unchanged
indexed fields (only `Score` differs) preserves the store invariant. -/
theorem SubmissionWF_update {s : Store} (hwf : SubmissionWF s) {sb sb' : Submission}
    (hgood' : GoodSubmission sb')
    (hmem : (sb.ID, Bytes.submissionJson sb) ∈ s) (hid : sb'.ID = sb.ID)
    (hkey1 : subIndexKey1 sb' = subIndexKey1 sb)
    (hkey2 : subIndexKey2 sb' = subIndexKey2 sb)
    (hkey3 : subIndexKey3 sb' = subIndexKey3 sb) :
    SubmissionWF (putStore s sb.ID (.submissionJson sb')) := by
  have hGl := SubmissionWF_good hwf hmem
  have hnd := keysND_putStore sb.ID (Bytes.submissionJson sb') hwf.nodup
  have hmemP : ∀ {k : String} {v : Bytes}, (k, v) ∈ putStore s sb.ID (.submissionJson sb') ↔
      (k = sb.ID ∧ v = .submissionJson sb') ∨ ((k, v) ∈ s ∧ k ≠ sb.ID) := fun {k v} =>
    mem_putStore hwf.nodup
  refine ⟨hnd, ?_, ?_⟩
  · rintro ⟨k, v⟩ hkv
    rw [hmemP] at hkv
    rcases hkv with ⟨hk, hv⟩ | ⟨hkv, hk⟩
    · exact Or.inl ⟨sb', hgood', by rw [hk, hv, ← hid]⟩
    · rcases hwf.shape _ hkv with ⟨m, hgm, he⟩ | ⟨m, hgm, hpm, he⟩
      · exact Or.inl ⟨m, hgm, he⟩
      · by_cases hmid : m.ID = sb.ID
        · have g1 := mem_getState hwf.nodup hpm
          have g2 := mem_getState hwf.nodup hmem
          rw [hmid, g2] at g1
          injection g1 with g1
          injection g1 with g1
          refine Or.inr ⟨sb', hgood', (hmemP).2 (Or.inl ⟨hid, rfl⟩), ?_⟩
          rcases he with he | he | he
          · exact Or.inl (by rw [he, ← g1, ← hkey1])
          · exact Or.inr (Or.inl (by rw [he, ← g1, ← hkey2]))
          · exact Or.inr (Or.inr (by rw [he, ← g1, ← hkey3]))
        · exact Or.inr ⟨m, hgm, (hmemP).2 (Or.inr ⟨hpm, hmid⟩), he⟩
  · intro m hmm
    rw [hmemP] at hmm
    rcases hmm with ⟨hk, hv⟩ | ⟨hmm, hk⟩
    · injection hv with hv
      obtain ⟨hi1, hi2, hi3⟩ := hwf.idx sb hmem
      refine ⟨?_, ?_, ?_⟩ <;> rw [hmemP]
      · exact Or.inr ⟨by rw [hv, hkey1]; exact hi1,
          by rw [hv, hkey1]; exact subIndexKey1_ne_id sb hGl.2.1⟩
      · exact Or.inr ⟨by rw [hv, hkey2]; exact hi2,
          by rw [hv, hkey2]; exact subIndexKey2_ne_id sb hGl.2.1⟩
      · exact Or.inr ⟨by rw [hv, hkey3]; exact hi3,
          by rw [hv, hkey3]; exact subIndexKey3_ne_id sb hGl.2.1⟩
    · obtain ⟨hi1, hi2, hi3⟩ := hwf.idx m hmm
      refine ⟨?_, ?_, ?_⟩ <;> rw [hmemP]
      · exact Or.inr ⟨hi1, subIndexKey1_ne_id m hGl.2.1⟩
      · exact Or.inr ⟨hi2, subIndexKey2_ne_id m hGl.2.1⟩
      · exact Or.inr ⟨hi3, subIndexKey3_ne_id m hGl.2.1⟩

/-- Control-flow reduction of `DeleteSubmission` when the read fails. -/
theorem DeleteSubmission_run_error (c : Ctx) (s : Store) (submissionID : String)
    {e : GoErr} (hR : ReadSubmission s submissionID = .error e) :
    DeleteSubmission c s submissionID = (.error e, s) := by
  rw [DeleteSubmission, hR]

/-- Control-flow reduction of `DeleteSubmission` when the read succeeds:
there is no ownership check, the deletions happen unconditionally. -/
theorem DeleteSubmission_run (c : Ctx) (s : Store) (submissionID : String)
    {sb : Submission} (hR : ReadSubmission s submissionID = .ok sb) :
    DeleteSubmission c s submissionID =
      (.ok (), delState (delState (delState (delState s submissionID)
        (subIndexKey1 sb)) (subIndexKey2 sb)) (subIndexKey3 sb)) := by
  rw [DeleteSubmission, hR]
  rfl

theorem UpdateSubmissionScore_run_error (c : Ctx) (s : Store) (submissionID : String)
    (newScore : Nat) {e : GoErr} (hR : ReadSubmission s submissionID = .error e) :
    UpdateSubmissionScore c s submissionID newScore = (.error e, s) := by
  rw [UpdateSubmissionScore, hR]

/-- Control-flow reduction of `UpdateSubmissionScore`: no ownership check. -/
theorem UpdateSubmissionScore_run {c : Ctx} (hc : c.failPut = []) (s : Store)
    (submissionID : String) (newScore : Nat)
    {sb : Submission} (hR : ReadSubmission s submissionID = .ok sb) :
    UpdateSubmissionScore c s submissionID newScore =
      (.ok (), putStore s submissionID (.submissionJson { sb with Score := newScore })) := by
  rw [UpdateSubmissionScore, hR]
  simp [putState, hc]

/-- Every committed well-formed Submission operation preserves the store invariant. -/
theorem SubmissionWF_commit {c : Ctx} (hc : c.failPut = []) {s : Store} {op : SubmissionOp}
    (hwf : SubmissionWF s) (hop : op.WF) : SubmissionWF (SubmissionOp.commit c s op) := by
  cases op with
  | create submissionID labID classID content owner =>
    obtain ⟨h1, h2, h3, -, h5⟩ := hop
    rw [SubmissionOp.commit]
    simp only [SubmissionOp.run]
    rw [CreateSubmission_run hc]
    by_cases hex : (getState s submissionID).isSome
    · rw [if_pos hex]
      exact hwf
    · rw [if_neg hex]
      exact SubmissionWF_create hwf h1 h2 h3 h5 (Option.not_isSome_iff_eq_none.1 hex)
  | delete submissionID =>
    have h1 : NF submissionID := hop
    rw [SubmissionOp.commit]
    simp only [SubmissionOp.run]
    cases hR : ReadSubmission s submissionID with
    | error e =>
      rw [DeleteSubmission_run_error c s submissionID hR]
      exact hwf
    | ok sb =>
      rw [DeleteSubmission_run c s submissionID hR]
      obtain ⟨hg, hid, hmem⟩ := ReadSubmission_ok hwf h1 hR
      have hmem' : (sb.ID, Bytes.submissionJson sb) ∈ s := by
        rw [hid]
        exact hmem
      have := SubmissionWF_delete hwf hg hmem'
      rw [hid] at this
      exact this
  | updateScore submissionID newScore =>
    have h1 : NF submissionID := hop
    rw [SubmissionOp.commit]
    simp only [SubmissionOp.run]
    cases hR : ReadSubmission s submissionID with
    | error e =>
      rw [UpdateSubmissionScore_run_error c s submissionID newScore hR]
      exact hwf
    | ok sb =>
      rw [UpdateSubmissionScore_run hc s submissionID newScore hR]
      obtain ⟨hg, hid, hmem⟩ := ReadSubmission_ok hwf h1 hR
      have hmem' : (sb.ID, Bytes.submissionJson sb) ∈ s := by
        rw [hid]
        exact hmem
      have := @SubmissionWF_update s hwf sb { sb with Score := newScore }
        ⟨hg.1, hg.2.1, hg.2.2.1, hg.2.2.2.1, hg.2.2.2.2⟩ hmem' rfl rfl rfl rfl
      show SubmissionWF (putStore s submissionID (.submissionJson { sb with Score := newScore }))
      rw [← hid]
      exact this

/-- Every reachable Submission store satisfies the shape invariant. -/
theorem SubmissionReach_WF {c : Ctx} (hc : c.failPut = []) {s : Store}
    (h : SubmissionReach c s) : SubmissionWF s := by
  induction h with
  | init =>
    refine ⟨List.nodup_nil, ?_, ?_⟩
    · intro kv hkv
      simp at hkv
    · intro sb hsb
      simp at hsb
  | step hr hop ih => exact SubmissionWF_commit hc ih hop

end SubmissionC

/-! ## Read helpers -/

/-- A primary Lab entry makes `ReadLab` succeed with the stored record. -/
theorem ReadLab_of_getState {s : Store} {labID : String} {l : Lab}
    (h : getState s labID = some (.labJson l)) : LabC.ReadLab s labID = .ok l := by
  unfold LabC.ReadLab
  rw [h]
  rfl

/-- A primary Instance entry makes `ReadInstance` succeed with the stored record. -/
theorem ReadInstance_of_getState {s : Store} {instanceID : String} {i : Instance}
    (h : getState s instanceID = some (.instanceJson i)) :
    InstanceC.ReadInstance s instanceID = .ok i := by
  unfold InstanceC.ReadInstance
  rw [h]
  rfl

/-- A primary Submission entry makes `ReadSubmission` succeed with the stored record. -/
theorem ReadSubmission_of_getState {s : Store} {submissionID : String} {sb : Submission}
    (h : getState s submissionID = some (.submissionJson sb)) :
    SubmissionC.ReadSubmission s submissionID = .ok sb := by
  unfold SubmissionC.ReadSubmission
  rw [h]
  rfl

/-- A primary Class entry makes `ReadClass` succeed with the stored record. -/
theorem ReadClass_of_getState {s : Store} {id : String} {cl : Class}
    (h : getState s id = some (.classJson cl)) : ClassC.ReadClass s id = .ok cl := by
  unfold ClassC.ReadClass
  rw [h]
  rfl

/-! ## Claim C1 -/

/-- C1 counterexample: the claim asserts that every Delete/Update/Transfer
operation invoked by a non-owner returns `Unauthorized` and writes nothing,
"in particular ... the Submission kind's Delete and score-update operations".
But `DeleteSubmission` accepts no caller identity at all and performs no
ownership check: on a store holding `sub1` owned by `"Tom"` it succeeds (for
any caller whatsoever) and removes the primary entry. -/
theorem spec_C1_counterexample :
    getState demoReachSubStore "sub1" =
      some (.submissionJson ⟨"submission", "sub1", "class1", "lab1", "text", "Tom", 0⟩) ∧
    (SubmissionC.DeleteSubmission demoCtx demoReachSubStore "sub1").1 = .ok () ∧
    getState (SubmissionC.DeleteSubmission demoCtx demoReachSubStore "sub1").2 "sub1" =
      none := by
  exact ⟨by decide, by decide, by decide⟩

/-- C1 (amended): for the Lab mutations (`DeleteLab`, `UpdateLabContent`,
`UpdateLabImage`, `UpdateLabEndtime`, `UpdateLab`), the Instance mutation
(`DeleteInstance`) and the Class mutations (`UpdateClass`, `DeleteClass`,
`TransferClass`), a caller identity different from the stored record's
`Owner` yields the not-authorized error and leaves the raw store untouched
(the check precedes every write).  The Submission contract is the exception
the original claim missed: `DeleteSubmission` and `UpdateSubmissionScore`
take no caller identity, perform no ownership check, and report success. -/
theorem spec_C1 :
    (∀ (c : Ctx) (s : Store) (labID clientID : String) (l : Lab),
      getState s labID = some (.labJson l) → clientID ≠ l.Owner →
      LabC.DeleteLab c s labID clientID = (.error .notAuthorized, s)) ∧
    (∀ (c : Ctx) (s : Store) (labID newContent clientID : String) (l : Lab),
      getState s labID = some (.labJson l) → clientID ≠ l.Owner →
      LabC.UpdateLabContent c s labID newContent clientID = (.error .notAuthorized, s)) ∧
    (∀ (c : Ctx) (s : Store) (labID newImage clientID : String) (l : Lab),
      getState s labID = some (.labJson l) → clientID ≠ l.Owner →
      LabC.UpdateLabImage c s labID newImage clientID = (.error .notAuthorized, s)) ∧
    (∀ (c : Ctx) (s : Store) (labID newTime clientID : String) (l : Lab),
      getState s labID = some (.labJson l) → clientID ≠ l.Owner →
      LabC.UpdateLabEndtime c s labID newTime clientID = (.error .notAuthorized, s)) ∧
    (∀ (c : Ctx) (s : Store)
      (labID newImage newName newContent newStartTime newEndTime clientID : String) (l : Lab),
      getState s labID = some (.labJson l) → clientID ≠ l.Owner →
      LabC.UpdateLab c s labID newImage newName newContent newStartTime newEndTime clientID =
        (.error .notAuthorized, s)) ∧
    (∀ (c : Ctx) (s : Store) (instanceID clientID : String) (i : Instance),
      getState s instanceID = some (.instanceJson i) → clientID ≠ i.Owner →
      InstanceC.DeleteInstance c s instanceID clientID = (.error .notAuthorized, s)) ∧
    (∀ (c : Ctx) (s : Store) (id newName newContent cid : String) (cl : Class),
      getState s id = some (.classJson cl) → ClassC.GetSubmittingClientIdentity c = .ok cid →
      cid ≠ cl.Owner → ClassC.UpdateClass c s id newName newContent =
        (.error .notAuthorized, s)) ∧
    (∀ (c : Ctx) (s : Store) (id cid : String) (cl : Class),
      getState s id = some (.classJson cl) → ClassC.GetSubmittingClientIdentity c = .ok cid →
      cid ≠ cl.Owner → ClassC.DeleteClass c s id = (.error .notAuthorized, s)) ∧
    (∀ (c : Ctx) (s : Store) (id newOwner cid : String) (cl : Class),
      getState s id = some (.classJson cl) → ClassC.GetSubmittingClientIdentity c = .ok cid →
      cid ≠ cl.Owner → ClassC.TransferClass c s id newOwner = (.error .notAuthorized, s)) ∧
    (∀ (c : Ctx) (s : Store) (submissionID : String) (sb : Submission),
      getState s submissionID = some (.submissionJson sb) →
      (SubmissionC.DeleteSubmission c s submissionID).1 = .ok ()) ∧
    (∀ (c : Ctx) (s : Store) (submissionID : String) (newScore : Nat) (sb : Submission),
      c.failPut = [] → getState s submissionID = some (.submissionJson sb) →
      (SubmissionC.UpdateSubmissionScore c s submissionID newScore).1 = .ok ()) := by
  refine ⟨?_, ?_, ?_, ?_, ?_, ?_, ?_, ?_, ?_, ?_, ?_⟩
  · intro c s labID clientID l h hne
    rw [LabC.DeleteLab, ReadLab_of_getState h]
    simp only [if_pos hne]
  · intro c s labID newContent clientID l h hne
    rw [LabC.UpdateLabContent, ReadLab_of_getState h]
    simp only [if_pos hne]
  · intro c s labID newImage clientID l h hne
    rw [LabC.UpdateLabImage, ReadLab_of_getState h]
    simp only [if_pos hne]
  · intro c s labID newTime clientID l h hne
    rw [LabC.UpdateLabEndtime, ReadLab_of_getState h]
    simp only [if_pos hne]
  · intro c s labID newImage newName newContent newStartTime newEndTime clientID l h hne
    rw [LabC.UpdateLab, ReadLab_of_getState h]
    simp only [if_pos hne]
  · intro c s instanceID clientID i h hne
    rw [InstanceC.DeleteInstance, ReadInstance_of_getState h]
    simp only [if_pos hne]
  · intro c s id newName newContent cid cl h hid hne
    rw [ClassC.UpdateClass, ReadClass_of_getState h, hid]
    simp only [if_pos hne]
  · intro c s id cid cl h hid hne
    rw [ClassC.DeleteClass, ReadClass_of_getState h, hid]
    simp only [if_pos hne]
  · intro c s id newOwner cid cl h hid hne
    rw [ClassC.TransferClass, ReadClass_of_getState h, hid]
    simp only [if_pos hne]
  · intro c s submissionID sb h
    rw [SubmissionC.DeleteSubmission_run c s submissionID (ReadSubmission_of_getState h)]
  · intro c s submissionID newScore sb hc h
    rw [SubmissionC.UpdateSubmissionScore_run hc s submissionID newScore
      (ReadSubmission_of_getState h)]

/-- C1 witness: every amended conjunct exercised on a concrete store. -/
theorem spec_C1_witness :
    LabC.DeleteLab demoCtx demoReachLabStore "lab1" "Eve" =
      (.error .notAuthorized, demoReachLabStore) ∧
    LabC.UpdateLabContent demoCtx demoReachLabStore "lab1" "x" "Eve" =
      (.error .notAuthorized, demoReachLabStore) ∧
    LabC.UpdateLabImage demoCtx demoReachLabStore "lab1" "x" "Eve" =
      (.error .notAuthorized, demoReachLabStore) ∧
    LabC.UpdateLabEndtime demoCtx demoReachLabStore "lab1" "x" "Eve" =
      (.error .notAuthorized, demoReachLabStore) ∧
    LabC.UpdateLab demoCtx demoReachLabStore "lab1" "a" "b" "c" "d" "e" "Eve" =
      (.error .notAuthorized, demoReachLabStore) ∧
    InstanceC.DeleteInstance demoCtx demoReachInstStore "i1" "Eve" =
      (.error .notAuthorized, demoReachInstStore) ∧
    ClassC.UpdateClass demoCtx demoClassStore "class1" "a" "b" =
      (.error .notAuthorized, demoClassStore) ∧
    ClassC.DeleteClass demoCtx demoClassStore "class1" =
      (.error .notAuthorized, demoClassStore) ∧
    ClassC.TransferClass demoCtx demoClassStore "class1" "Eve" =
      (.error .notAuthorized, demoClassStore) ∧
    (SubmissionC.DeleteSubmission demoCtx demoReachSubStore "sub1").1 = .ok () ∧
    (SubmissionC.UpdateSubmissionScore demoCtx demoReachSubStore "sub1" 95).1 = .ok () := by
  obtain ⟨h1, h2, h3, h4, h5, h6, h7, h8, h9, h10, h11⟩ := spec_C1
  refine ⟨h1 demoCtx demoReachLabStore "lab1" "Eve" demoLab (by decide) (by decide),
    h2 demoCtx demoReachLabStore "lab1" "x" "Eve" demoLab (by decide) (by decide),
    h3 demoCtx demoReachLabStore "lab1" "x" "Eve" demoLab (by decide) (by decide),
    h4 demoCtx demoReachLabStore "lab1" "x" "Eve" demoLab (by decide) (by decide),
    h5 demoCtx demoReachLabStore "lab1" "a" "b" "c" "d" "e" "Eve" demoLab
      (by decide) (by decide),
    h6 demoCtx demoReachInstStore "i1" "Eve" ⟨"instance", "i1", "class1", "lab1", "cfg", "Tom"⟩
      (by decide) (by decide),
    h7 demoCtx demoClassStore "class1" "a" "b" "Tom" ⟨"class1", "n", "c", "Alice"⟩
      (by decide) (by decide) (by decide),
    h8 demoCtx demoClassStore "class1" "Tom" ⟨"class1", "n", "c", "Alice"⟩
      (by decide) (by decide) (by decide),
    h9 demoCtx demoClassStore "class1" "Eve" "Tom" ⟨"class1", "n", "c", "Alice"⟩
      (by decide) (by decide) (by decide),
    h10 demoCtx demoReachSubStore "sub1" ⟨"submission", "sub1", "class1", "lab1", "text", "Tom", 0⟩
      (by decide),
    h11 demoCtx demoReachSubStore "sub1" 95 ⟨"submission", "sub1", "class1", "lab1", "text", "Tom", 0⟩
      rfl (by decide)⟩

/-! ## Claim C3 -/

/-- C3 (code bug): `CreateInstance` and `CreateSubmission` execute `return nil`
when the write of their second index entry (`classID~name`) fails, reporting
success to the caller after a failed index write; the third index entry is then
never attempted, while the primary record and the first index entry remain in
the reported write set.  `CreateLab`, with its single index write, does
propagate the failure.  Evaluated at the failing input: `CreateInstance` with a
store that rejects the `classID~name` key of `i1`. -/
theorem spec_C3 :
    (InstanceC.CreateInstance c3InstCtx [] "i1" "lab1" "class1" "cfg" "Tom").1 = .ok () ∧
    ("i1", Bytes.instanceJson ⟨"instance", "i1", "class1", "lab1", "cfg", "Tom"⟩) ∈
      (InstanceC.CreateInstance c3InstCtx [] "i1" "lab1" "class1" "cfg" "Tom").2 ∧
    (createCompositeKey "labID~name" ["lab1", "i1"], Bytes.nullByte) ∈
      (InstanceC.CreateInstance c3InstCtx [] "i1" "lab1" "class1" "cfg" "Tom").2 ∧
    (createCompositeKey "classID~name" ["class1", "i1"], Bytes.nullByte) ∉
      (InstanceC.CreateInstance c3InstCtx [] "i1" "lab1" "class1" "cfg" "Tom").2 ∧
    (createCompositeKey "owner~name" ["Tom", "i1"], Bytes.nullByte) ∉
      (InstanceC.CreateInstance c3InstCtx [] "i1" "lab1" "class1" "cfg" "Tom").2 ∧
    (SubmissionC.CreateSubmission c3SubCtx [] "sub1" "lab1" "class1" "text" "Tom").1 =
      .ok () ∧
    (createCompositeKey "classID~name" ["class1", "sub1"], Bytes.nullByte) ∉
      (SubmissionC.CreateSubmission c3SubCtx [] "sub1" "lab1" "class1" "text" "Tom").2 ∧
    (LabC.CreateLab c3LabCtx [] "lab1" "class1" "n" "c" "i" "st" "e" "Tom").1 =
      .error (.putFailed (createCompositeKey "classID~name" ["class1", "lab1"])) := by
  exact ⟨by decide, by decide, by decide, by decide, by decide, by decide, by decide, by decide⟩

/-! ## Claim C4 -/

/-- `putState` succeeding describes the written store. -/
theorem putState_ok {c : Ctx} {s : Store} {k : String} {v : Bytes} {s' : Store}
    (h : putState c s k v = .ok s') : s' = putStore s k v := by
  unfold putState at h
  by_cases hm : k ∈ c.failPut
  · rw [if_pos hm] at h
    exact absurd h (by simp)
  · rw [if_neg hm] at h
    injection h with h
    exact h.symm

/-- Control-flow reduction of `CreateClass`. -/
theorem CreateClass_run (c : Ctx) (s : Store) (id name content owner : String) :
    ClassC.CreateClass c s id name content owner =
      if ¬ c.attrOk then (.error .notCreator, s)
      else if (getState s id).isSome then (.error (.alreadyExists id), s)
      else
        match ClassC.GetSubmittingClientIdentity c with
        | .error e => (.error e, s)
        | .ok clientID =>
          match putState c s id (.classJson ⟨id, name, content, clientID⟩) with
          | .error e => (.error e, s)
          | .ok s1 => (.ok (), s1) := by
  rw [ClassC.CreateClass]
  rfl

/-- C4 (confirmed): creating the same id twice returns `AlreadyExists` on the
second call, and the store (the record's fields and every index entry) is
exactly the store produced by the first call.  For the Lab kind the id must be
a Fabric-valid simple key (`U+0000`-free, the shim's documented requirement),
since the id is compared against the composite index key written alongside it. -/
theorem spec_C4 :
    (∀ (c : Ctx) (s s₁ : Store)
      (labID classID name content image startTime endTime owner : String)
      (classID' name' content' image' startTime' endTime' owner' : String),
      c.failPut = [] → NF labID →
      LabC.CreateLab c s labID classID name content image startTime endTime owner =
        (.ok (), s₁) →
      LabC.CreateLab c s₁ labID classID' name' content' image' startTime' endTime' owner' =
        (.error (.alreadyExists labID), s₁)) ∧
    (∀ (c : Ctx) (s s₁ : Store) (id name content owner name' content' owner' : String),
      ClassC.CreateClass c s id name content owner = (.ok (), s₁) →
      ClassC.CreateClass c s₁ id name' content' owner' = (.error (.alreadyExists id), s₁)) := by
  constructor
  · intro c s s₁ labID classID name content image startTime endTime owner
      classID' name' content' image' startTime' endTime' owner' hc hNF h
    rw [LabC.CreateLab_run hc] at h
    by_cases hex : (getState s labID).isSome
    · rw [if_pos hex] at h
      simp [Prod.ext_iff] at h
    · rw [if_neg hex] at h
      have hs₁ : s₁ = putStore (putStore s labID
          (.labJson ⟨"lab", labID, classID, name, content, image, startTime, endTime, owner⟩))
          (createCompositeKey LabC.index [classID, labID]) .nullByte :=
        (congrArg Prod.snd h).symm
      have hsome : getState s₁ labID =
          some (.labJson ⟨"lab", labID, classID, name, content, image,
            startTime, endTime, owner⟩) := by
        rw [hs₁, getState_putStore_ne _ _ _ (createCompositeKey_ne_id _ _ hNF).symm,
          getState_putStore_self]
      rw [LabC.CreateLab_run hc, if_pos (by rw [hsome]; rfl)]
  · intro c s s₁ id name content owner name' content' owner' h
    rw [CreateClass_run] at h
    by_cases hA : ¬ c.attrOk
    · rw [if_pos hA] at h
      simp [Prod.ext_iff] at h
    · rw [if_neg hA] at h
      by_cases hex : (getState s id).isSome
      · rw [if_pos hex] at h
        simp [Prod.ext_iff] at h
      · rw [if_neg hex] at h
        split at h
        · simp [Prod.ext_iff] at h
        · rename_i clientID hI
          split at h
          · simp [Prod.ext_iff] at h
          · rename_i s' hP
            have hs₁ : s₁ = s' := (congrArg Prod.snd h).symm
            have hsome : getState s₁ id = some (.classJson ⟨id, name, content, clientID⟩) := by
              rw [hs₁, putState_ok hP, getState_putStore_self]
            rw [CreateClass_run, if_neg hA, if_pos (by rw [hsome]; rfl)]

/-- C4 witness: concrete double creation for both cited kinds. -/
theorem spec_C4_witness :
    LabC.CreateLab demoCtx demoReachLabStore "lab1" "x" "y" "z" "w" "v" "u" "Sam" =
      (.error (.alreadyExists "lab1"), demoReachLabStore) ∧
    ClassC.CreateClass demoCtx (ClassC.CreateClass demoCtx [] "class1" "n" "c" "Tomoko").2
        "class1" "n2" "c2" "Brad" =
      (.error (.alreadyExists "class1"),
        (ClassC.CreateClass demoCtx [] "class1" "n" "c" "Tomoko").2) := by
  refine ⟨spec_C4.1 demoCtx [] demoReachLabStore "lab1" "class1" "n" "c" "i" "st" "e" "Tom"
    "x" "y" "z" "w" "v" "u" "Sam" rfl (by decide) (by decide),
    spec_C4.2 demoCtx [] (ClassC.CreateClass demoCtx [] "class1" "n" "c" "Tomoko").2
      "class1" "n" "c" "Tomoko" "n2" "c2" "Brad" (by decide)⟩

/-! ## Claim C6 -/

/-- C6 counterexample: after a single `CreateLab`, the store holds the lab and
its index entry (whose one-byte `0x00` value is not valid JSON).  A full range
scan hits the index entry and the whole scan fails with an unmarshal error; the
perfectly good lab record is not returned.  Entries that do not parse are NOT
skipped, contrary to the claim. -/
theorem spec_C6_counterexample :
    ("lab1", Bytes.labJson demoLab) ∈ demoReachLabStore ∧
    LabC.GetLabsByRange demoReachLabStore "" "" = .error .unmarshalFailed := by
  exact ⟨by decide, by decide⟩

/-- If some scanned entry fails to unmarshal, the Lab iterator loop aborts
with the unmarshal error. -/
theorem constructQueryResponseFromIterator_error :
    ∀ (l : List (String × Bytes)), (∃ kv ∈ l, unmarshalLab kv.2 = none) →
    LabC.constructQueryResponseFromIterator l = .error .unmarshalFailed := by
  intro l
  induction l with
  | nil =>
    rintro ⟨kv, hm, -⟩
    simp at hm
  | cons kv rest ih =>
    rintro ⟨kv', hm, hu⟩
    rcases List.mem_cons.1 hm with he | hm'
    · rw [LabC.constructQueryResponseFromIterator]
      rw [show unmarshalLab kv.2 = none from he ▸ hu]
    · rw [LabC.constructQueryResponseFromIterator]
      cases hu2 : unmarshalLab kv.2 with
      | none => rfl
      | some lab =>
        rw [ih ⟨kv', hm', hu⟩]

/-- C6 (amended): a range-scanned entry whose value does not deserialize as the
target record type causes the whole scan to fail with the unmarshal error
(entries are not skipped and the remaining records are not returned). -/
theorem spec_C6 : ∀ (s : Store) (startKey endKey : String),
    (∃ kv ∈ getStateByRange s startKey endKey, unmarshalLab kv.2 = none) →
    LabC.GetLabsByRange s startKey endKey = .error .unmarshalFailed := by
  intro s startKey endKey h
  exact constructQueryResponseFromIterator_error _ h

/-- C6 witness: the amended claim applied to the post-`CreateLab` store, over
a range containing the non-parsing index entry. -/
theorem spec_C6_witness :
    LabC.GetLabsByRange demoReachLabStore "" "z" = .error .unmarshalFailed :=
  spec_C6 demoReachLabStore "" "z"
    ⟨(createCompositeKey "classID~name" ["class1", "lab1"], Bytes.nullByte),
      by decide, by decide⟩

/-! ## Claim C7 -/

/-- C7 counterexample: called with `pageSize = 0` (and `-7`), the paginated
operations do not fail with an invalid-argument error; they forward the page
size to the store and succeed with whatever the store returns. -/
theorem spec_C7_counterexample :
    LabC.QueryAssetsWithPagination (pagedCtx "bmA") "q" 0 "" = .ok ⟨[demoLab], 1, "bmA"⟩ ∧
    LabC.GetAssetsByRangeWithPagination (pagedCtx "bmA") [] "" "" (-7) "" = .ok [demoLab] := by
  exact ⟨by decide, by decide⟩

/-- Every error produced by the Lab iterator loop is the unmarshal error. -/
theorem constructQueryResponseFromIterator_error_eq :
    ∀ {l : List (String × Bytes)} {e : GoErr},
    LabC.constructQueryResponseFromIterator l = .error e → e = .unmarshalFailed := by
  intro l
  induction l with
  | nil =>
    intro e h
    simp [LabC.constructQueryResponseFromIterator] at h
  | cons kv rest ih =>
    intro e h
    rw [LabC.constructQueryResponseFromIterator] at h
    cases hu : unmarshalLab kv.2 with
    | none =>
      rw [hu] at h
      injection h with h
      exact h.symm
    | some lab =>
      rw [hu] at h
      cases hr : LabC.constructQueryResponseFromIterator rest with
      | error e' =>
        rw [hr] at h
        injection h with h
        exact h ▸ ih hr
      | ok labs =>
        rw [hr] at h
        exact absurd h (by simp)

/-- C7 (amended): neither paginated operation validates `pageSize`.  The call
is always forwarded to the store with `int32(pageSize)`, the store's answer
alone determines the outcome, and the layer itself never produces an
invalid-argument error. -/
theorem spec_C7 :
    (∀ (c : Ctx) (q : String) (ps : Int) (bm : String) (page : List (String × Bytes))
      (fc : Int) (bmk : String),
      c.richQueryPaged q (toInt32 ps) bm = .ok (page, fc, bmk) →
      LabC.QueryAssetsWithPagination c q ps bm =
        match LabC.constructQueryResponseFromIterator page with
        | .error e => .error e
        | .ok labs => .ok ⟨labs, fc, bmk⟩) ∧
    (∀ (c : Ctx) (q : String) (ps : Int) (bm : String) (e : GoErr),
      c.richQueryPaged q (toInt32 ps) bm = .error e →
      LabC.QueryAssetsWithPagination c q ps bm = .error e) ∧
    (∀ (c : Ctx) (s : Store) (a b : String) (ps : Int) (bm : String)
      (page : List (String × Bytes)) (fc : Int) (bmk : String),
      c.rangePaged a b (toInt32 ps) bm = .ok (page, fc, bmk) →
      LabC.GetAssetsByRangeWithPagination c s a b ps bm =
        LabC.constructQueryResponseFromIterator page) ∧
    (∀ (c : Ctx) (s : Store) (a b : String) (ps : Int) (bm : String) (e : GoErr),
      c.rangePaged a b (toInt32 ps) bm = .error e →
      LabC.GetAssetsByRangeWithPagination c s a b ps bm = .error e) ∧
    (∀ (c : Ctx) (q : String) (ps : Int) (bm : String),
      (∀ (q' : String) (ps' : Int) (bm' : String),
        c.richQueryPaged q' ps' bm' ≠ .error .invalidArgument) →
      LabC.QueryAssetsWithPagination c q ps bm ≠ .error .invalidArgument) := by
  refine ⟨?_, ?_, ?_, ?_, ?_⟩
  · intro c q ps bm page fc bmk h
    rw [LabC.QueryAssetsWithPagination, LabC.getQueryResultForQueryStringWithPagination, h]
  · intro c q ps bm e h
    rw [LabC.QueryAssetsWithPagination, LabC.getQueryResultForQueryStringWithPagination, h]
  · intro c s a b ps bm page fc bmk h
    rw [LabC.GetAssetsByRangeWithPagination, h]
  · intro c s a b ps bm e h
    rw [LabC.GetAssetsByRangeWithPagination, h]
  · intro c q ps bm hno
    rw [LabC.QueryAssetsWithPagination, LabC.getQueryResultForQueryStringWithPagination]
    cases ho : c.richQueryPaged q (toInt32 ps) bm with
    | error e =>
      intro he
      simp only at he
      injection he with he
      exact hno q (toInt32 ps) bm (by rw [ho, he])
    | ok t =>
      obtain ⟨page, fc, bmk⟩ := t
      cases hcr : LabC.constructQueryResponseFromIterator page with
      | error e' =>
        intro he
        simp only [hcr] at he
        injection he with he
        rw [constructQueryResponseFromIterator_error_eq hcr] at he
        exact GoErr.noConfusion he
      | ok labs =>
        intro he
        simp only [hcr] at he
        exact Except.noConfusion he

/-- C7 witness: the forwarding characterization applied at `pageSize = 0`. -/
theorem spec_C7_witness :
    LabC.QueryAssetsWithPagination (pagedCtx "bmW") "q" 0 "" =
      match LabC.constructQueryResponseFromIterator [("lab1", Bytes.labJson demoLab)] with
      | .error e => .error e
      | .ok labs => .ok ⟨labs, 1, "bmW"⟩ :=
  spec_C7.1 (pagedCtx "bmW") "q" 0 "" [("lab1", Bytes.labJson demoLab)] 1 "bmW" rfl

/-! ## Claim C8 -/

/-- C8 counterexample: two stores that answer the paginated range scan with
the same page but different bookmarks are indistinguishable through
`GetAssetsByRangeWithPagination` (the metadata is discarded with `_`), while
`QueryAssetsWithPagination` does distinguish them.  The paginated range scan
therefore cannot be returning the store-produced `nextBookmark`, contrary to
the claim that it has the same contract as the paginated query. -/
theorem spec_C8_counterexample :
    (pagedCtx "bmA").rangePaged "" "" 2 "" =
      .ok ([("lab1", Bytes.labJson demoLab)], 1, "bmA") ∧
    (pagedCtx "bmB").rangePaged "" "" 2 "" =
      .ok ([("lab1", Bytes.labJson demoLab)], 1, "bmB") ∧
    LabC.GetAssetsByRangeWithPagination (pagedCtx "bmA") [] "" "" 2 "" =
      LabC.GetAssetsByRangeWithPagination (pagedCtx "bmB") [] "" "" 2 "" ∧
    LabC.QueryAssetsWithPagination (pagedCtx "bmA") "q" 2 "" ≠
      LabC.QueryAssetsWithPagination (pagedCtx "bmB") "q" 2 "" := by
  exact ⟨rfl, rfl, by decide, by decide⟩

/-- C8 (amended): `GetAssetsByRangeWithPagination` returns only the decoded
page of records — the store's `FetchedRecordsCount` and `Bookmark` are
discarded, so no bookmark is available to resume the enumeration — whereas
`QueryAssetsWithPagination` returns the records together with the fetched
count and the store's bookmark verbatim. -/
theorem spec_C8 :
    (∀ (c : Ctx) (s : Store) (a b : String) (ps : Int) (bm : String)
      (page : List (String × Bytes)) (fc : Int) (bmk : String),
      c.rangePaged a b (toInt32 ps) bm = .ok (page, fc, bmk) →
      LabC.GetAssetsByRangeWithPagination c s a b ps bm =
        LabC.constructQueryResponseFromIterator page) ∧
    (∀ (c : Ctx) (q : String) (ps : Int) (bm : String)
      (page : List (String × Bytes)) (fc : Int) (bmk : String) (labs : List Lab),
      c.richQueryPaged q (toInt32 ps) bm = .ok (page, fc, bmk) →
      LabC.constructQueryResponseFromIterator page = .ok labs →
      LabC.QueryAssetsWithPagination c q ps bm = .ok ⟨labs, fc, bmk⟩) := by
  constructor
  · intro c s a b ps bm page fc bmk h
    rw [LabC.GetAssetsByRangeWithPagination, h]
  · intro c q ps bm page fc bmk labs h hpage
    rw [LabC.QueryAssetsWithPagination, LabC.getQueryResultForQueryStringWithPagination, h]
    simp only [hpage]

/-- C8 witness: both amended conjuncts applied at a concrete paginated call. -/
theorem spec_C8_witness :
    LabC.GetAssetsByRangeWithPagination (pagedCtx "bmW") [] "" "" 2 "" =
      LabC.constructQueryResponseFromIterator [("lab1", Bytes.labJson demoLab)] ∧
    LabC.QueryAssetsWithPagination (pagedCtx "bmW") "q" 2 "" =
      .ok ⟨[demoLab], 1, "bmW"⟩ := by
  refine ⟨spec_C8.1 (pagedCtx "bmW") [] "" "" 2 "" [("lab1", Bytes.labJson demoLab)] 1 "bmW" rfl,
    spec_C8.2 (pagedCtx "bmW") "q" 2 "" [("lab1", Bytes.labJson demoLab)] 1 "bmW" [demoLab]
      rfl (by decide)⟩

/-! ## Claim C10 -/

/-- C10 (confirmed): `CreateClass` ignores its `owner` argument entirely — two
calls differing only in that argument are literally the same computation — and
the stored record's `Owner` is the base64-decoded submitting client identity.
Concretely, `InitLedger` invoked by the client whose decoded identity is
`"Tom"` stores all six classes with owner `"Tom"`, not the owner values
(`"Tomoko"`, `"Brad"`, ...) it passes. -/
theorem spec_C10 :
    (∀ (c : Ctx) (s : Store) (id name content o1 o2 : String),
      ClassC.CreateClass c s id name content o1 = ClassC.CreateClass c s id name content o2) ∧
    (∀ (c : Ctx) (s s₁ : Store) (id name content owner b64 : String) (bs : List Nat),
      c.getIdResult = .ok b64 → base64DecodeChars b64.data = some bs →
      ClassC.CreateClass c s id name content owner = (.ok (), s₁) →
      getState s₁ id = some (.classJson ⟨id, name, content, bytesToString bs⟩)) ∧
    ((ClassC.InitLedger demoCtx []).1 = .ok () ∧
     getState (ClassC.InitLedger demoCtx []).2 "class1" =
       some (.classJson ⟨"class1", "class1", "test", "Tom"⟩) ∧
     getState (ClassC.InitLedger demoCtx []).2 "class2" =
       some (.classJson ⟨"class2", "class2", "test", "Tom"⟩) ∧
     getState (ClassC.InitLedger demoCtx []).2 "class3" =
       some (.classJson ⟨"class3", "class3", "test", "Tom"⟩) ∧
     getState (ClassC.InitLedger demoCtx []).2 "class4" =
       some (.classJson ⟨"class4", "class4", "test", "Tom"⟩) ∧
     getState (ClassC.InitLedger demoCtx []).2 "class5" =
       some (.classJson ⟨"class5", "class5", "test", "Tom"⟩) ∧
     getState (ClassC.InitLedger demoCtx []).2 "class6" =
       some (.classJson ⟨"class6", "class6", "test", "Tom"⟩)) := by
  refine ⟨?_, ?_, ?_⟩
  · intro c s id name content o1 o2
    rfl
  · intro c s s₁ id name content owner b64 bs h1 h2 h
    have hid : ClassC.GetSubmittingClientIdentity c = .ok (bytesToString bs) := by
      rw [ClassC.GetSubmittingClientIdentity, h1]
      simp only [h2]
    rw [CreateClass_run] at h
    by_cases hA : ¬ c.attrOk
    · rw [if_pos hA] at h
      simp [Prod.ext_iff] at h
    · rw [if_neg hA] at h
      by_cases hex : (getState s id).isSome
      · rw [if_pos hex] at h
        simp [Prod.ext_iff] at h
      · rw [if_neg hex] at h
        split at h
        · simp [Prod.ext_iff] at h
        · rename_i clientID hI
          have hcid : clientID = bytesToString bs := by
            rw [hid] at hI
            injection hI with hI
            exact hI.symm
          split at h
          · simp [Prod.ext_iff] at h
          · rename_i s' hP
            have hs₁ : s₁ = s' := (congrArg Prod.snd h).symm
            rw [hs₁, putState_ok hP, getState_putStore_self, hcid]
  · exact ⟨by decide, by decide, by decide, by decide, by decide, by decide, by decide⟩

/-- C10 witness: the decoded identity `"Tom"` (base64 `"VG9t"`) is stored as
the owner although the caller passed `"Tomoko"`. -/
theorem spec_C10_witness :
    getState (ClassC.CreateClass demoCtx [] "c9" "n" "x" "Tomoko").2 "c9" =
      some (.classJson ⟨"c9", "n", "x", "Tom"⟩) := by
  have h := spec_C10.2.1 demoCtx [] (ClassC.CreateClass demoCtx [] "c9" "n" "x" "Tomoko").2
    "c9" "n" "x" "Tomoko" "VG9t" [84, 111, 109] rfl (by decide) (by decide)
  exact (show bytesToString [84, 111, 109] = "Tom" by decide) ▸ h

/-! ## Claim C2 -/

/-- C2 (confirmed): over every store reachable by committed contract
operations (without store failures, and with `U+0000`-free arguments as the
Fabric shim requires of keys), the index-consistency invariant holds for all
three indexed kinds: every stored record has the index entry of each of its
kind's index specifications, and every index entry in the store is the entry
of a currently stored record under one of its kind's specifications.  Creates
write every declared entry and deletes remove every declared entry within the
same operation, which is what the induction steps of the proof establish.
(The Class kind declares no index specification, so its invariant is vacuous.) -/
theorem spec_C2 :
    (∀ (c : Ctx) (s : Store), c.failPut = [] → LabC.LabReach c s →
      ((∀ l : Lab, (l.ID, Bytes.labJson l) ∈ s →
         (LabC.labIndexKey l, Bytes.nullByte) ∈ s) ∧
       (∀ k : String, (k, Bytes.nullByte) ∈ s →
         ∃ l : Lab, (l.ID, Bytes.labJson l) ∈ s ∧ k = LabC.labIndexKey l))) ∧
    (∀ (c : Ctx) (s : Store), c.failPut = [] → InstanceC.InstanceReach c s →
      ((∀ i : Instance, (i.ID, Bytes.instanceJson i) ∈ s →
         (InstanceC.instIndexKey1 i, Bytes.nullByte) ∈ s ∧
         (InstanceC.instIndexKey2 i, Bytes.nullByte) ∈ s ∧
         (InstanceC.instIndexKey3 i, Bytes.nullByte) ∈ s) ∧
       (∀ k : String, (k, Bytes.nullByte) ∈ s →
         ∃ i : Instance, (i.ID, Bytes.instanceJson i) ∈ s ∧
           (k = InstanceC.instIndexKey1 i ∨ k = InstanceC.instIndexKey2 i ∨
            k = InstanceC.instIndexKey3 i)))) ∧
    (∀ (c : Ctx) (s : Store), c.failPut = [] → SubmissionC.SubmissionReach c s →
      ((∀ sb : Submission, (sb.ID, Bytes.submissionJson sb) ∈ s →
         (SubmissionC.subIndexKey1 sb, Bytes.nullByte) ∈ s ∧
         (SubmissionC.subIndexKey2 sb, Bytes.nullByte) ∈ s ∧
         (SubmissionC.subIndexKey3 sb, Bytes.nullByte) ∈ s) ∧
       (∀ k : String, (k, Bytes.nullByte) ∈ s →
         ∃ sb : Submission, (sb.ID, Bytes.submissionJson sb) ∈ s ∧
           (k = SubmissionC.subIndexKey1 sb ∨ k = SubmissionC.subIndexKey2 sb ∨
            k = SubmissionC.subIndexKey3 sb)))) := by
  refine ⟨?_, ?_, ?_⟩
  · intro c s hc hr
    have hwf := LabC.LabReach_WF hc hr
    refine ⟨hwf.idx, ?_⟩
    intro k hk
    rcases hwf.shape _ hk with ⟨l, -, he⟩ | ⟨l, -, hprim, he⟩
    · exact absurd (congrArg Prod.snd he) (by simp)
    · exact ⟨l, hprim, congrArg Prod.fst he⟩
  · intro c s hc hr
    have hwf := InstanceC.InstanceReach_WF hc hr
    refine ⟨hwf.idx, ?_⟩
    intro k hk
    rcases hwf.shape _ hk with ⟨i, -, he⟩ | ⟨i, -, hprim, he⟩
    · exact absurd (congrArg Prod.snd he) (by simp)
    · rcases he with he | he | he
      · exact ⟨i, hprim, Or.inl (congrArg Prod.fst he)⟩
      · exact ⟨i, hprim, Or.inr (Or.inl (congrArg Prod.fst he))⟩
      · exact ⟨i, hprim, Or.inr (Or.inr (congrArg Prod.fst he))⟩
  · intro c s hc hr
    have hwf := SubmissionC.SubmissionReach_WF hc hr
    refine ⟨hwf.idx, ?_⟩
    intro k hk
    rcases hwf.shape _ hk with ⟨sb, -, he⟩ | ⟨sb, -, hprim, he⟩
    · exact absurd (congrArg Prod.snd he) (by simp)
    · rcases he with he | he | he
      · exact ⟨sb, hprim, Or.inl (congrArg Prod.fst he)⟩
      · exact ⟨sb, hprim, Or.inr (Or.inl (congrArg Prod.fst he))⟩
      · exact ⟨sb, hprim, Or.inr (Or.inr (congrArg Prod.fst he))⟩

/-- C2 witness: the invariant instantiated on the store reached by one
committed `CreateLab`. -/
theorem spec_C2_witness :
    (LabC.labIndexKey demoLab, Bytes.nullByte) ∈ demoReachLabStore := by
  have hreach : LabC.LabReach demoCtx demoReachLabStore :=
    @LabC.LabReach.step demoCtx [] (.create "lab1" "class1" "n" "c" "i" "st" "e" "Tom")
      LabC.LabReach.init (by decide)
  exact (spec_C2.1 demoCtx demoReachLabStore rfl hreach).1 demoLab (by decide)

/-! ## Claim C5 -/

/-- Two primary Lab entries under the same key hold the same record. -/
theorem stored_lab_eq {s : Store} (hnd : KeysND s) {id : String} {l l' : Lab}
    (h1 : getState s id = some (.labJson l)) (h2 : (l'.ID, Bytes.labJson l') ∈ s)
    (he : l'.ID = id) : l' = l := by
  have g := mem_getState hnd h2
  rw [he, h1] at g
  injection g with g
  injection g with g
  exact g.symm

/-- Two primary Instance entries under the same key hold the same record. -/
theorem stored_inst_eq {s : Store} (hnd : KeysND s) {id : String} {i i' : Instance}
    (h1 : getState s id = some (.instanceJson i)) (h2 : (i'.ID, Bytes.instanceJson i') ∈ s)
    (he : i'.ID = id) : i' = i := by
  have g := mem_getState hnd h2
  rw [he, h1] at g
  injection g with g
  injection g with g
  exact g.symm

/-- C5 (confirmed): on a reachable store, an owner-authorized delete succeeds,
afterwards `Exists(id)` is false, the primary entry is gone, and no index entry
whose final (tie-breaking) segment is `id` remains under any of the kind's
index specifications, for any (Fabric-valid, i.e. `U+0000`-free) leading
segment value.  Proved for the two cited kinds, Lab and Instance. -/
theorem spec_C5 :
    (∀ (c : Ctx) (s : Store) (labID clientID : String) (l : Lab),
      c.failPut = [] → LabC.LabReach c s → NF labID →
      getState s labID = some (.labJson l) → clientID = l.Owner →
      (LabC.DeleteLab c s labID clientID).1 = .ok () ∧
      LabC.LabExists (LabC.DeleteLab c s labID clientID).2 labID = .ok false ∧
      getState (LabC.DeleteLab c s labID clientID).2 labID = none ∧
      (∀ cid : String, NF cid → ∀ v : Bytes,
        (createCompositeKey LabC.index [cid, labID], v) ∉
          (LabC.DeleteLab c s labID clientID).2)) ∧
    (∀ (c : Ctx) (s : Store) (instanceID clientID : String) (i : Instance),
      c.failPut = [] → InstanceC.InstanceReach c s → NF instanceID →
      getState s instanceID = some (.instanceJson i) → clientID = i.Owner →
      (InstanceC.DeleteInstance c s instanceID clientID).1 = .ok () ∧
      InstanceC.InstanceExists (InstanceC.DeleteInstance c s instanceID clientID).2
        instanceID = .ok false ∧
      getState (InstanceC.DeleteInstance c s instanceID clientID).2 instanceID = none ∧
      (∀ seg : String, NF seg → ∀ v : Bytes,
        (createCompositeKey InstanceC.index1 [seg, instanceID], v) ∉
          (InstanceC.DeleteInstance c s instanceID clientID).2 ∧
        (createCompositeKey InstanceC.index2 [seg, instanceID], v) ∉
          (InstanceC.DeleteInstance c s instanceID clientID).2 ∧
        (createCompositeKey InstanceC.index3 [seg, instanceID], v) ∉
          (InstanceC.DeleteInstance c s instanceID clientID).2)) := by
  constructor
  · intro c s labID clientID l hc hr hid hsome howner
    have hwf := LabC.LabReach_WF hc hr
    have hmem := getState_eq_some_mem hsome
    have hgood : LabC.GoodLab l := by
      rcases hwf.shape _ hmem with ⟨l', hg, he⟩ | ⟨l', -, -, he⟩
      · have hv : Bytes.labJson l = Bytes.labJson l' := congrArg Prod.snd he
        injection hv with hv
        rw [hv]
        exact hg
      · exact absurd (congrArg Prod.fst he).symm (LabC.labIndexKey_ne_id l' hid)
    have hR : LabC.ReadLab s labID = .ok l := ReadLab_of_getState hsome
    have hnot : ¬ (clientID ≠ l.Owner) := fun hne => hne howner
    rw [LabC.DeleteLab_run c s labID clientID hR, if_neg hnot]
    have hne1 : labID ≠ LabC.labIndexKey l :=
      fun he => (LabC.labIndexKey_ne_id l hid) he.symm
    have hnone : getState (delState (delState s labID) (LabC.labIndexKey l)) labID = none := by
      rw [getState_delState_ne _ _ hne1, getState_delState_self]
    refine ⟨rfl, ?_, hnone, ?_⟩
    · unfold LabC.LabExists
      rw [hnone]
      rfl
    · intro cid hcid v hv
      rw [mem_delState, mem_delState] at hv
      obtain ⟨⟨hvs, hneID⟩, hneK⟩ := hv
      rcases hwf.shape _ hvs with ⟨l', hg', he⟩ | ⟨l', hg', hp', he⟩
      · exact createCompositeKey_ne_id LabC.index [cid, labID] hg'.2.1 (congrArg Prod.fst he)
      · have hkeq : createCompositeKey LabC.index [cid, labID] = LabC.labIndexKey l' :=
          congrArg Prod.fst he
        obtain ⟨-, hlist⟩ := createCompositeKey_inj LabC.NF_index LabC.NF_index
          (InstanceC.NF_pair hcid hid) (InstanceC.NF_pair hg'.2.2 hg'.2.1) hkeq
        injection hlist with h1 hrest
        injection hrest with h2 hnil
        have hleq : l' = l := stored_lab_eq hwf.nodup hsome hp' h2.symm
        refine hneK ?_
        rw [hkeq, hleq]
  · intro c s instanceID clientID i hc hr hid hsome howner
    have hwf := InstanceC.InstanceReach_WF hc hr
    have hmem := getState_eq_some_mem hsome
    have hgood : InstanceC.GoodInstance i := by
      rcases hwf.shape _ hmem with ⟨i', hg, he⟩ | ⟨i', -, -, he⟩
      · have hv : Bytes.instanceJson i = Bytes.instanceJson i' := congrArg Prod.snd he
        injection hv with hv
        rw [hv]
        exact hg
      · rcases he with he | he | he
        · exact absurd (congrArg Prod.fst he).symm (InstanceC.instIndexKey1_ne_id i' hid)
        · exact absurd (congrArg Prod.fst he).symm (InstanceC.instIndexKey2_ne_id i' hid)
        · exact absurd (congrArg Prod.fst he).symm (InstanceC.instIndexKey3_ne_id i' hid)
    have hR : InstanceC.ReadInstance s instanceID = .ok i := ReadInstance_of_getState hsome
    have hnot : ¬ (clientID ≠ i.Owner) := fun hne => hne howner
    rw [InstanceC.DeleteInstance_run c s instanceID clientID hR, if_neg hnot]
    have hne1 : instanceID ≠ InstanceC.instIndexKey1 i :=
      fun he => (InstanceC.instIndexKey1_ne_id i hid) he.symm
    have hne2 : instanceID ≠ InstanceC.instIndexKey2 i :=
      fun he => (InstanceC.instIndexKey2_ne_id i hid) he.symm
    have hne3 : instanceID ≠ InstanceC.instIndexKey3 i :=
      fun he => (InstanceC.instIndexKey3_ne_id i hid) he.symm
    have hnone : getState (delState (delState (delState (delState s instanceID)
        (InstanceC.instIndexKey1 i)) (InstanceC.instIndexKey2 i))
        (InstanceC.instIndexKey3 i)) instanceID = none := by
      rw [getState_delState_ne _ _ hne3, getState_delState_ne _ _ hne2,
        getState_delState_ne _ _ hne1, getState_delState_self]
    refine ⟨rfl, ?_, hnone, ?_⟩
    · unfold InstanceC.InstanceExists
      rw [hnone]
      rfl
    · intro seg hseg v
      have hbase : ∀ (idx : String) (k : String), NF idx →
          k = createCompositeKey idx [seg, instanceID] →
          (k, v) ∈ delState (delState (delState (delState s instanceID)
            (InstanceC.instIndexKey1 i)) (InstanceC.instIndexKey2 i))
            (InstanceC.instIndexKey3 i) →
          ∃ i' : Instance, InstanceC.GoodInstance i' ∧
            (i'.ID, Bytes.instanceJson i') ∈ s ∧ i' = i ∧
            (k = InstanceC.instIndexKey1 i' ∨ k = InstanceC.instIndexKey2 i' ∨
             k = InstanceC.instIndexKey3 i') ∧
            k ≠ InstanceC.instIndexKey1 i ∧ k ≠ InstanceC.instIndexKey2 i ∧
            k ≠ InstanceC.instIndexKey3 i := by
        intro idx k hNFidx hkdef hv
        rw [mem_delState, mem_delState, mem_delState, mem_delState] at hv
        obtain ⟨⟨⟨⟨hvs, hneID⟩, hK1⟩, hK2⟩, hK3⟩ := hv
        rcases hwf.shape _ hvs with ⟨i', hg', he⟩ | ⟨i', hg', hp', he⟩
        · refine absurd (congrArg Prod.fst he) ?_
          rw [hkdef]
          exact createCompositeKey_ne_id idx [seg, instanceID] hg'.2.1
        · rcases he with he | he | he
          · have hkeq : k = InstanceC.instIndexKey1 i' := congrArg Prod.fst he
            have hkeq' := hkeq
            rw [hkdef] at hkeq'
            obtain ⟨-, hlist⟩ := createCompositeKey_inj hNFidx InstanceC.NF_index1
              (InstanceC.NF_pair hseg hid) (InstanceC.NF_pair hg'.2.2.1 hg'.2.1) hkeq'
            injection hlist with e1 hrest
            injection hrest with e2 hnil
            exact ⟨i', hg', hp', stored_inst_eq hwf.nodup hsome hp' e2.symm,
              Or.inl hkeq, hK1, hK2, hK3⟩
          · have hkeq : k = InstanceC.instIndexKey2 i' := congrArg Prod.fst he
            have hkeq' := hkeq
            rw [hkdef] at hkeq'
            obtain ⟨-, hlist⟩ := createCompositeKey_inj hNFidx InstanceC.NF_index2
              (InstanceC.NF_pair hseg hid) (InstanceC.NF_pair hg'.2.2.2.1 hg'.2.1) hkeq'
            injection hlist with e1 hrest
            injection hrest with e2 hnil
            exact ⟨i', hg', hp', stored_inst_eq hwf.nodup hsome hp' e2.symm,
              Or.inr (Or.inl hkeq), hK1, hK2, hK3⟩
          · have hkeq : k = InstanceC.instIndexKey3 i' := congrArg Prod.fst he
            have hkeq' := hkeq
            rw [hkdef] at hkeq'
            obtain ⟨-, hlist⟩ := createCompositeKey_inj hNFidx InstanceC.NF_index3
              (InstanceC.NF_pair hseg hid) (InstanceC.NF_pair hg'.2.2.2.2 hg'.2.1) hkeq'
            injection hlist with e1 hrest
            injection hrest with e2 hnil
            exact ⟨i', hg', hp', stored_inst_eq hwf.nodup hsome hp' e2.symm,
              Or.inr (Or.inr hkeq), hK1, hK2, hK3⟩
      refine ⟨?_, ?_, ?_⟩
      · intro hv
        obtain ⟨i', -, -, hii, he, hK1, hK2, hK3⟩ :=
          hbase InstanceC.index1 _ InstanceC.NF_index1 rfl hv
        rcases he with he | he | he
        · exact hK1 (hii ▸ he)
        · exact hK2 (hii ▸ he)
        · exact hK3 (hii ▸ he)
      · intro hv
        obtain ⟨i', -, -, hii, he, hK1, hK2, hK3⟩ :=
          hbase InstanceC.index2 _ InstanceC.NF_index2 rfl hv
        rcases he with he | he | he
        · exact hK1 (hii ▸ he)
        · exact hK2 (hii ▸ he)
        · exact hK3 (hii ▸ he)
      · intro hv
        obtain ⟨i', -, -, hii, he, hK1, hK2, hK3⟩ :=
          hbase InstanceC.index3 _ InstanceC.NF_index3 rfl hv
        rcases he with he | he | he
        · exact hK1 (hii ▸ he)
        · exact hK2 (hii ▸ he)
        · exact hK3 (hii ▸ he)

/-- C5 witness: owner-authorized deletion on concrete reachable stores. -/
theorem spec_C5_witness :
    (LabC.DeleteLab demoCtx demoReachLabStore "lab1" "Tom").1 = .ok () ∧
    getState (LabC.DeleteLab demoCtx demoReachLabStore "lab1" "Tom").2 "lab1" = none ∧
    (createCompositeKey LabC.index ["class1", "lab1"], Bytes.nullByte) ∉
      (LabC.DeleteLab demoCtx demoReachLabStore "lab1" "Tom").2 ∧
    (InstanceC.DeleteInstance demoCtx demoReachInstStore "i1" "Tom").1 = .ok () ∧
    (createCompositeKey InstanceC.index3 ["Tom", "i1"], Bytes.nullByte) ∉
      (InstanceC.DeleteInstance demoCtx demoReachInstStore "i1" "Tom").2 := by
  have hreachL : LabC.LabReach demoCtx demoReachLabStore :=
    @LabC.LabReach.step demoCtx [] (.create "lab1" "class1" "n" "c" "i" "st" "e" "Tom")
      LabC.LabReach.init (by decide)
  have hreachI : InstanceC.InstanceReach demoCtx demoReachInstStore :=
    @InstanceC.InstanceReach.step demoCtx [] (.create "i1" "lab1" "class1" "cfg" "Tom")
      InstanceC.InstanceReach.init (by decide)
  have hL := spec_C5.1 demoCtx demoReachLabStore "lab1" "Tom" demoLab rfl hreachL
    (by decide) (by decide) (by decide)
  have hI := spec_C5.2 demoCtx demoReachInstStore "i1" "Tom"
    ⟨"instance", "i1", "class1", "lab1", "cfg", "Tom"⟩ rfl hreachI
    (by decide) (by decide) (by decide)
  exact ⟨hL.1, hL.2.2.1, hL.2.2.2 "class1" (by decide) Bytes.nullByte,
    hI.1, (hI.2.2.2 "Tom" (by decide) Bytes.nullByte).2.2⟩

/-! ## Claim C9 -/

/-- C9 (confirmed): a successful Create on a reachable store (with
Fabric-valid, `U+0000`-free key material) stores the submitted fields under
the id, makes `Exists(id)` true, and writes under each declared index
specification exactly one entry, keyed by the composite key built from the
indexed field value followed by the record id as the final tie-breaking
segment; a scan of that index prefix therefore finds exactly one entry whose
final segment resolves to the id, and any other stored record — even one
sharing all indexed field values — has a different entry key (its own id is
the final segment).  Proved for the two cited kinds, Lab and Instance. -/
theorem spec_C9 :
    (∀ (c : Ctx) (s : Store)
      (labID classID name content image startTime endTime owner : String),
      c.failPut = [] → LabC.LabReach c s → NF labID → NF classID →
      (LabC.CreateLab c s labID classID name content image startTime endTime owner).1 =
        .ok () →
      (LabC.LabExists
        (LabC.CreateLab c s labID classID name content image startTime endTime owner).2
        labID = .ok true ∧
      LabC.ReadLab
        (LabC.CreateLab c s labID classID name content image startTime endTime owner).2
        labID = .ok ⟨"lab", labID, classID, name, content, image, startTime, endTime, owner⟩ ∧
      (createCompositeKey LabC.index [classID, labID], Bytes.nullByte) ∈
        (LabC.CreateLab c s labID classID name content image startTime endTime owner).2 ∧
      ((LabC.CreateLab c s labID classID name content image startTime endTime owner).2.filter
        (fun kv => kv.1 == createCompositeKey LabC.index [classID, labID])).length = 1 ∧
      (∀ l' : Lab, (l'.ID, Bytes.labJson l') ∈
          (LabC.CreateLab c s labID classID name content image startTime endTime owner).2 →
        l'.ID ≠ labID →
        LabC.labIndexKey l' ≠ createCompositeKey LabC.index [classID, labID]))) ∧
    (∀ (c : Ctx) (s : Store) (instanceID labID classID config owner : String),
      c.failPut = [] → InstanceC.InstanceReach c s →
      NF instanceID → NF labID → NF classID → NF owner →
      (InstanceC.CreateInstance c s instanceID labID classID config owner).1 = .ok () →
      (InstanceC.InstanceExists
        (InstanceC.CreateInstance c s instanceID labID classID config owner).2 instanceID =
          .ok true ∧
      InstanceC.ReadInstance
        (InstanceC.CreateInstance c s instanceID labID classID config owner).2 instanceID =
          .ok ⟨"instance", instanceID, classID, labID, config, owner⟩ ∧
      (createCompositeKey InstanceC.index1 [labID, instanceID], Bytes.nullByte) ∈
        (InstanceC.CreateInstance c s instanceID labID classID config owner).2 ∧
      (createCompositeKey InstanceC.index2 [classID, instanceID], Bytes.nullByte) ∈
        (InstanceC.CreateInstance c s instanceID labID classID config owner).2 ∧
      (createCompositeKey InstanceC.index3 [owner, instanceID], Bytes.nullByte) ∈
        (InstanceC.CreateInstance c s instanceID labID classID config owner).2 ∧
      ((InstanceC.CreateInstance c s instanceID labID classID config owner).2.filter
        (fun kv => kv.1 == createCompositeKey InstanceC.index1 [labID, instanceID])).length
          = 1 ∧
      ((InstanceC.CreateInstance c s instanceID labID classID config owner).2.filter
        (fun kv => kv.1 == createCompositeKey InstanceC.index2 [classID, instanceID])).length
          = 1 ∧
      ((InstanceC.CreateInstance c s instanceID labID classID config owner).2.filter
        (fun kv => kv.1 == createCompositeKey InstanceC.index3 [owner, instanceID])).length
          = 1 ∧
      (∀ i' : Instance, (i'.ID, Bytes.instanceJson i') ∈
          (InstanceC.CreateInstance c s instanceID labID classID config owner).2 →
        i'.ID ≠ instanceID →
        InstanceC.instIndexKey1 i' ≠ createCompositeKey InstanceC.index1 [labID, instanceID] ∧
        InstanceC.instIndexKey2 i' ≠ createCompositeKey InstanceC.index2 [classID, instanceID] ∧
        InstanceC.instIndexKey3 i' ≠
          createCompositeKey InstanceC.index3 [owner, instanceID]))) := by
  constructor
  · intro c s labID classID name content image startTime endTime owner hc hr hid hcid h1
    have hwf := LabC.LabReach_WF hc hr
    have hrun := LabC.CreateLab_run hc s labID classID name content image startTime endTime owner
    by_cases hex : (getState s labID).isSome
    · rw [hrun, if_pos hex] at h1
      simp at h1
    · have hfresh := Option.not_isSome_iff_eq_none.1 hex
      rw [hrun, if_neg hex]
      have hwf2 := @LabC.LabWF_create s hwf labID classID name content image startTime
        endTime owner hid hcid hfresh
      have hne : labID ≠ createCompositeKey LabC.index [classID, labID] :=
        fun he => createCompositeKey_ne_id LabC.index [classID, labID] hid he.symm
      have hg2 : getState (putStore (putStore s labID
          (.labJson ⟨"lab", labID, classID, name, content, image, startTime, endTime, owner⟩))
          (createCompositeKey LabC.index [classID, labID]) .nullByte) labID =
          some (.labJson ⟨"lab", labID, classID, name, content, image,
            startTime, endTime, owner⟩) := by
        rw [getState_putStore_ne _ _ _ hne, getState_putStore_self]
      have hprim : ((⟨"lab", labID, classID, name, content, image, startTime, endTime,
          owner⟩ : Lab).ID, Bytes.labJson ⟨"lab", labID, classID, name, content, image,
          startTime, endTime, owner⟩) ∈ putStore (putStore s labID
          (.labJson ⟨"lab", labID, classID, name, content, image, startTime, endTime, owner⟩))
          (createCompositeKey LabC.index [classID, labID]) .nullByte :=
        getState_eq_some_mem hg2
      have hidx := hwf2.idx _ hprim
      refine ⟨?_, ?_, hidx, ?_, ?_⟩
      · unfold LabC.LabExists
        rw [hg2]
        rfl
      · exact ReadLab_of_getState hg2
      · exact filter_key_length_one hwf2.nodup hidx
      · intro l' hl' hne'
        have hg' := LabC.LabWF_good hwf2 hl'
        intro he
        exact hne' (@LabC.labIndexKey_inj l'
          ⟨"lab", labID, classID, name, content, image, startTime, endTime, owner⟩
          hg' ⟨rfl, hid, hcid⟩ he).2
  · intro c s instanceID labID classID config owner hc hr hid hlab hcl how h1
    have hwf := InstanceC.InstanceReach_WF hc hr
    have hrun := InstanceC.CreateInstance_run hc s instanceID labID classID config owner
    by_cases hex : (getState s instanceID).isSome
    · rw [hrun, if_pos hex] at h1
      simp at h1
    · have hfresh := Option.not_isSome_iff_eq_none.1 hex
      rw [hrun, if_neg hex]
      have hwf2 := @InstanceC.InstanceWF_create s hwf instanceID labID classID config owner
        hid hlab hcl how hfresh
      have hne1 : instanceID ≠ createCompositeKey InstanceC.index1 [labID, instanceID] :=
        fun he => createCompositeKey_ne_id InstanceC.index1 [labID, instanceID] hid he.symm
      have hne2 : instanceID ≠ createCompositeKey InstanceC.index2 [classID, instanceID] :=
        fun he => createCompositeKey_ne_id InstanceC.index2 [classID, instanceID] hid he.symm
      have hne3 : instanceID ≠ createCompositeKey InstanceC.index3 [owner, instanceID] :=
        fun he => createCompositeKey_ne_id InstanceC.index3 [owner, instanceID] hid he.symm
      have hg2 : getState (putStore (putStore (putStore (putStore s instanceID
          (.instanceJson ⟨"instance", instanceID, classID, labID, config, owner⟩))
          (createCompositeKey InstanceC.index1 [labID, instanceID]) .nullByte)
          (createCompositeKey InstanceC.index2 [classID, instanceID]) .nullByte)
          (createCompositeKey InstanceC.index3 [owner, instanceID]) .nullByte) instanceID =
          some (.instanceJson ⟨"instance", instanceID, classID, labID, config, owner⟩) := by
        rw [getState_putStore_ne _ _ _ hne3, getState_putStore_ne _ _ _ hne2,
          getState_putStore_ne _ _ _ hne1, getState_putStore_self]
      have hprim := getState_eq_some_mem hg2
      obtain ⟨hk1, hk2, hk3⟩ := hwf2.idx ⟨"instance", instanceID, classID, labID, config, owner⟩
        hprim
      refine ⟨?_, ?_, hk1, hk2, hk3, ?_, ?_, ?_, ?_⟩
      · unfold InstanceC.InstanceExists
        rw [hg2]
        rfl
      · exact ReadInstance_of_getState hg2
      · exact filter_key_length_one hwf2.nodup hk1
      · exact filter_key_length_one hwf2.nodup hk2
      · exact filter_key_length_one hwf2.nodup hk3
      · intro i' hi' hne'
        have hg' := InstanceC.InstanceWF_good hwf2 hi'
        have hgood : InstanceC.GoodInstance
            ⟨"instance", instanceID, classID, labID, config, owner⟩ :=
          ⟨rfl, hid, hlab, hcl, how⟩
        refine ⟨?_, ?_, ?_⟩
        · intro he
          exact hne' (@InstanceC.instIndexKey1_inj i'
            ⟨"instance", instanceID, classID, labID, config, owner⟩ hg' hgood he).2
        · intro he
          exact hne' (@InstanceC.instIndexKey2_inj i'
            ⟨"instance", instanceID, classID, labID, config, owner⟩ hg' hgood he).2
        · intro he
          exact hne' (@InstanceC.instIndexKey3_inj i'
            ⟨"instance", instanceID, classID, labID, config, owner⟩ hg' hgood he).2

/-- C9 witness: concrete creations from the empty store for both kinds. -/
theorem spec_C9_witness :
    LabC.ReadLab (LabC.CreateLab demoCtx [] "lab1" "class1" "n" "c" "i" "st" "e" "Tom").2
      "lab1" = .ok demoLab ∧
    ((LabC.CreateLab demoCtx [] "lab1" "class1" "n" "c" "i" "st" "e" "Tom").2.filter
      (fun kv => kv.1 == createCompositeKey LabC.index ["class1", "lab1"])).length = 1 ∧
    (createCompositeKey InstanceC.index3 ["Tom", "i1"], Bytes.nullByte) ∈
      (InstanceC.CreateInstance demoCtx [] "i1" "lab1" "class1" "cfg" "Tom").2 := by
  have hL := spec_C9.1 demoCtx [] "lab1" "class1" "n" "c" "i" "st" "e" "Tom" rfl
    LabC.LabReach.init (by decide) (by decide) (by decide)
  have hI := spec_C9.2 demoCtx [] "i1" "lab1" "class1" "cfg" "Tom" rfl
    InstanceC.InstanceReach.init (by decide) (by decide) (by decide) (by decide) (by decide)
  exact ⟨hL.2.1, hL.2.2.2.1, hI.2.2.2.2.1⟩

end LabPlatform
